import Mathlib

/-!
A shallow embedding of the core of the `RDBMS` repository (files
`parser.py` and `engine.py`): a small SQL-like engine with typed columns,
primary-key / unique constraints, equality indexes and a JSON snapshot.

Modelling conventions:
* Python strings are Lean `String`s (lists of characters); the WHERE-clause
  condition scanner, which works character by character, is embedded over
  `List Char`.
* Python `int` is `Int`; a finite Python `float` is modelled as the exact
  rational `num / 10 ^ exp10` in normalized ten-adic form, together with a
  negative-zero mark (Python keeps `-0.0` distinct from `0.0` under `str`
  while `==`-equal to it), plus a `NaN` value that is `==`-unequal to
  everything including itself.  The engine only ever casts floats from
  decimal text, compares them, and stringifies them — it performs no
  arithmetic.  Python's `float()` rounds the token to the nearest binary
  double; the model treats tokens as exact decimals, which agrees with
  Python on all tokens short enough (17 significant digits) not to collide
  under that rounding.  Infinity and exponent-notation tokens are outside
  the model.
* Python dicts are insertion-ordered association lists; assignment replaces
  the value of the first matching key in place and otherwise appends,
  exactly like Python's insertion-order semantics for unique-key dicts.
* Fallible Python code is embedded in `Except`/`Option`; an uncaught Python
  exception (`KeyError`, `ValueError`, `TypeError`) is a `Res.fault`.
* `str(x)` on typed values is embedded by `pyStr`.  For ints and bools the
  digits are exact; for floats (whose `repr` in Python is an injective
  string rendering that round-trips) we use an injective `num/exp`
  rendering of the normalized ten-adic pair with a distinguished mark for
  the negative-zero sign, which is observationally equivalent for the
  engine: the engine never inspects the characters of an index key, it
  only compares keys for equality, and the rendering equates keys exactly
  when Python's `str` does (`-0.0` and `0.0` get distinct keys, `nan` gets
  the one key `'nan'`).
-/

namespace RDB

/-- The four column types of `PYTHON_TYPES` (`engine.py` lines 28-36):
`int`, `text`/`varchar` ↦ `str`, `float`/`decimal` ↦ `float`,
`bool`/`boolean` ↦ `bool`. -/
inductive ColType where
  | int
  | text
  | float
  | bool
deriving DecidableEq, Repr

/-- A typed cell value: Python `int`, `str`, `float` or `bool`.  A finite
float is the exact rational `num / 10 ^ exp10`, stored ten-adically
normalized (the cast strips factors of ten, so `float('0.50')` and
`float('0.5')` yield the same value, as in Python), together with a
negative-zero mark: Python keeps `-0.0` distinct from `0.0` (`str(-0.0)`
is `'-0.0'`, not `'0.0'`) although the two compare `==`-equal.  `vNan` is
`float('nan')`, which `str`s to the single token `'nan'` yet is
`==`-unequal to everything, itself included.  (Infinities and exponent
literals are outside the modelled float fragment; no claim depends on
them.) -/
inductive Value where
  | vInt (n : Int)
  | vStr (s : String)
  | vFloat (num : Int) (exp10 : Nat) (negZero : Bool)
  | vNan
  | vBool (b : Bool)
deriving DecidableEq, Repr

/-- The runtime type of a value, as `type(x)` observes it. -/
def typeOfValue : Value → ColType
  | .vInt _ => .int
  | .vStr _ => .text
  | .vFloat _ _ _ => .float
  | .vNan => .float
  | .vBool _ => .bool

/-- `PYTHON_TYPES` (`engine.py` lines 28-36) as a partial map from the
type-name strings stored in a table's `types` dict to column types. -/
def PYTHON_TYPES : String → Option ColType
  | "int" => some .int
  | "text" => some .text
  | "varchar" => some .text
  | "float" => some .float
  | "decimal" => some .float
  | "bool" => some .bool
  | "boolean" => some .bool
  | _ => none

/-! ### Decimal digit strings

Python's `str` on a nonnegative integer produces its decimal digits; we
embed it with an explicit fuel argument (the number is its own fuel bound)
so that the definition is structurally recursive and kernel-reducible. -/

/-- Accumulator-style decimal rendering: place the digits of `n` (low
digit innermost) in front of `acc`.  `fuel ≥ n` guarantees enough steps. -/
def natCharsAux : Nat → Nat → List Char → List Char
  | 0, _, acc => acc
  | fuel + 1, n, acc =>
    if n < 10 then Char.ofNat (48 + n) :: acc
    else natCharsAux fuel (n / 10) (Char.ofNat (48 + n % 10) :: acc)

/-- The decimal digit string of a natural number, as Python `str` renders
it. -/
def natChars (n : Nat) : List Char := natCharsAux (n + 1) n []

/-- Decode a digit string back to a number (left fold, most significant
digit first), starting from seed `a`. -/
def decDigits (a : Nat) (l : List Char) : Nat :=
  l.foldl (fun acc c => acc * 10 + (c.toNat - 48)) a

/-- Python `str` of an `int`: a minus sign for negatives, then the decimal
digits of the absolute value. -/
def intChars (n : Int) : List Char :=
  if n < 0 then '-' :: natChars n.natAbs else natChars n.toNat

/-- Python `str(n)` for an integer, as a `String`. -/
def natStr (n : Nat) : String := ⟨natChars n⟩

/-- Python `str(n)` for an `int`, as a `String`. -/
def intStr (n : Int) : String := ⟨intChars n⟩

/-- ASCII lowercasing of one character (`str.lower` on the ASCII tokens the
engine handles). -/
def lowerChar (c : Char) : Char :=
  if 'A' ≤ c && c ≤ 'Z' then Char.ofNat (c.toNat + 32) else c

/-- Python `s.lower()` (ASCII model). -/
def pyLower (s : String) : String := ⟨s.data.map lowerChar⟩

/-- Python `str`/`repr` of a finite float is an injective rendering that
round-trips; we embed it as the (injective) `num/exp` rendering of the
normalized ten-adic pair.  Because cast values are normalized, equal float
values render equally and distinct ones differently — exactly the
behaviour of Python's `str` on the modelled fragment, up to the
negative-zero mark handled in `pyStr`. -/
def floatChars (num : Int) (exp10 : Nat) : List Char :=
  intChars num ++ '/' :: natChars exp10

/-- Python `str(x)` on a typed value, used for index keys
(`rebuild_indexes`, `engine.py` line 61, and the constraint checks at
lines 211/218).  The negative-zero mark renders as a distinguished prefix,
so that — exactly as in Python, where `str(-0.0) = '-0.0' ≠ '0.0'` —
negative zero stringifies differently from zero while being `==`-equal to
it; `nan` renders as the single key `'nan'`. -/
def pyStr : Value → String
  | .vInt n => intStr n
  | .vStr s => s
  | .vBool b => if b then "True" else "False"
  | .vFloat num exp10 negZero =>
    ⟨(if negZero then ['-', '.'] else []) ++ floatChars num exp10⟩
  | .vNan => "nan"

/-! ### Casting raw text tokens to typed values -/

/-- Is `l` a nonempty string of decimal digits? -/
def allDigits (l : List Char) : Bool := l.all (fun c => c.isDigit)

/-- Python `int(s)` on the trimmed token: an optional minus sign followed
by decimal digits (Python's extra allowances — surrounding whitespace, a
plus sign, underscore separators — are outside the model; no claim depends
on them). -/
def intOfChars : List Char → Option Int
  | '-' :: rest =>
    if rest ≠ [] ∧ allDigits rest then some (-(decDigits 0 rest : Int)) else none
  | l => if l ≠ [] ∧ allDigits l then some (decDigits 0 l : Int) else none

/-- Strip common factors of ten from the ten-adic pair `num / 10 ^ d`
(fuel-based, `d` is its own fuel bound), so that equal decimal tokens
yield structurally equal pairs. -/
def tenNormAux : Nat → Nat → Nat → Nat × Nat
  | 0, n, d => (n, d)
  | fuel + 1, n, d =>
    if d == 0 then (n, d)
    else if n % 10 == 0 then tenNormAux fuel (n / 10) (d - 1) else (n, d)

/-- The normalized ten-adic form of `n / 10 ^ d`. -/
def tenNorm (n d : Nat) : Nat × Nat := tenNormAux d n d

/-- Python `float(s)` on an unsigned token: digits, optionally followed by
a dot and more digits, at least one digit overall, read as the normalized
ten-adic pair `(num, exp)` with value `num / 10 ^ exp`. -/
def posFloatOfChars (l : List Char) : Option (Nat × Nat) :=
  let intPart := l.takeWhile (fun c => c.isDigit)
  match l.dropWhile (fun c => c.isDigit) with
  | [] => if intPart ≠ [] then some (decDigits 0 intPart, 0) else none
  | '.' :: frac =>
    if allDigits frac ∧ (intPart ≠ [] ∨ frac ≠ []) then
      some (tenNorm (decDigits 0 (intPart ++ frac)) frac.length)
    else none
  | _ => none

/-- Python `float(s)`: an optional minus sign, then `nan` (in any letter
case) or an unsigned decimal token.  `float('-0.0')` is the negative zero:
`==`-equal to `0.0` but with `str` `'-0.0'`; `float('nan')`, signed or
not, is NaN. -/
def floatOfChars (l : List Char) : Option Value :=
  if l.map lowerChar = ['n', 'a', 'n'] ∨ l.map lowerChar = ['-', 'n', 'a', 'n'] then
    some .vNan
  else
    match l with
    | '-' :: rest =>
      (posFloatOfChars rest).map (fun p => .vFloat (-(p.1 : Int)) p.2 (p.1 == 0))
    | _ => (posFloatOfChars l).map (fun p => .vFloat (p.1 : Int) p.2 false)

/-- Casting a raw text token to a column type, i.e. `python_type(val)` at
the engine's call sites (`engine.py` lines 203, 122, 319, 333).  `none`
is Python's `ValueError`; `str` and `bool` never fail on a string, and
`bool` is Python truthiness: every nonempty string is `True`. -/
def castValue : ColType → String → Option Value
  | .int, s => (intOfChars s.data).map .vInt
  | .text, s => some (.vStr s)
  | .float, s => floatOfChars s.data
  | .bool, s => some (.vBool (!s.data.isEmpty))

/-- Lexicographic comparison of character lists by code point, as Python
compares strings. -/
def listLtChars : List Char → List Char → Bool
  | [], [] => false
  | [], _ :: _ => true
  | _ :: _, [] => false
  | a :: as, b :: bs => if a < b then true else if b < a then false else listLtChars as bs

/-- Python `s.split(ch)`: pieces between the occurrences of `ch`. -/
def splitOnChar (ch : Char) : List Char → List (List Char)
  | [] => [[]]
  | c :: rest =>
    match splitOnChar ch rest with
    | [] => [[]]
    | p :: ps => if c == ch then [] :: p :: ps else (c :: p) :: ps

/-! ### Python comparison semantics on typed values -/

/-- A `bool` seen as the Python numeric value it equals (`True == 1`). -/
def boolAsInt (b : Bool) : Int := if b then 1 else 0

/-- Python `==` on typed values: equal within a type; numeric types
(`int`, `float`, `bool`) compare across each other by numeric value, so
`-0.0 == 0.0` is `True` (the negative-zero mark is invisible to `==`);
`nan` is `==`-unequal to everything, itself included; strings never equal
non-strings.  Never raises. -/
def pyEq : Value → Value → Bool
  | .vInt a, .vInt b => a == b
  | .vStr a, .vStr b => a == b
  | .vFloat a d1 _, .vFloat b d2 _ => a * (10 : Int) ^ d2 == b * (10 : Int) ^ d1
  | .vBool a, .vBool b => a == b
  | .vInt a, .vFloat b d _ => a * (10 : Int) ^ d == b
  | .vFloat a d _, .vInt b => a == b * (10 : Int) ^ d
  | .vBool a, .vInt b => boolAsInt a == b
  | .vInt a, .vBool b => a == boolAsInt b
  | .vBool a, .vFloat b d _ => boolAsInt a * (10 : Int) ^ d == b
  | .vFloat a d _, .vBool b => a == boolAsInt b * (10 : Int) ^ d
  | _, _ => false

/-- Python `<` on typed values: `none` is a `TypeError` (ordering a string
against a non-string); numeric types order by numeric value; every order
comparison against `nan` is `False`. -/
def pyLt : Value → Value → Option Bool
  | .vInt a, .vInt b => some (a < b)
  | .vStr a, .vStr b => some (listLtChars a.data b.data)
  | .vFloat a d1 _, .vFloat b d2 _ => some (a * (10 : Int) ^ d2 < b * (10 : Int) ^ d1)
  | .vBool a, .vBool b => some (boolAsInt a < boolAsInt b)
  | .vInt a, .vFloat b d _ => some (a * (10 : Int) ^ d < b)
  | .vFloat a d _, .vInt b => some (a < b * (10 : Int) ^ d)
  | .vBool a, .vInt b => some (boolAsInt a < b)
  | .vInt a, .vBool b => some (a < boolAsInt b)
  | .vBool a, .vFloat b d _ => some (boolAsInt a * (10 : Int) ^ d < b)
  | .vFloat a d _, .vBool b => some (a < boolAsInt b * (10 : Int) ^ d)
  | .vNan, .vInt _ => some false
  | .vInt _, .vNan => some false
  | .vNan, .vFloat _ _ _ => some false
  | .vFloat _ _ _, .vNan => some false
  | .vNan, .vBool _ => some false
  | .vBool _, .vNan => some false
  | .vNan, .vNan => some false
  | _, _ => none

/-- Python `<=`: `a <= b  ↔  a < b ∨ a == b` for the engine's types. -/
def pyLe (a b : Value) : Option Bool :=
  (pyLt a b).map (fun lt => lt || pyEq a b)

/-- Python `>` is `<` flipped for these types. -/
def pyGt (a b : Value) : Option Bool := pyLt b a

/-- Python `>=` is `<=` flipped for these types. -/
def pyGe (a b : Value) : Option Bool := pyLe b a

/-! ### Insertion-ordered dictionaries (Python dicts as association lists) -/

/-- `d[k]` / `d.get(k)`: the value of the first entry with key `k`. -/
def dget {α : Type} (m : List (String × α)) (k : String) : Option α :=
  (m.find? (fun e => e.1 == k)).map (fun e => e.2)

/-- `k in d`. -/
def dmem {α : Type} (m : List (String × α)) (k : String) : Bool :=
  (dget m k).isSome

/-- `d[k] = v`: replace the value of the first entry with key `k`, keeping
its position; append a new entry if the key is absent (Python dict
insertion-order assignment). -/
def dset {α : Type} : List (String × α) → String → α → List (String × α)
  | [], k, v => [(k, v)]
  | (k', v') :: rest, k, v =>
    if k' == k then (k, v) :: rest else (k', v') :: dset rest k v

/-- `d.setdefault(k, []).append(r)`: append `r` to the bucket of key `k`,
creating the bucket at the end if the key is absent (`rebuild_indexes`,
`engine.py` line 61). -/
def dappend {α : Type} : List (String × List α) → String → α → List (String × List α)
  | [], k, r => [(k, [r])]
  | (k', l) :: rest, k, r =>
    if k' == k then (k', l ++ [r]) :: rest else (k', l) :: dappend rest k r

/-! ### The catalog data model -/

/-- A stored row: an insertion-ordered map from column name to typed
value. -/
abbrev Row := List (String × Value)

/-- One equality index: stringified value ↦ ordered bucket of rows. -/
abbrev Index := List (String × List Row)

instance : DecidableEq Row := inferInstance

instance : DecidableEq Index := inferInstance

/-- A table of the catalog, exactly the dict built by the CREATE handler
(`engine.py` lines 167-174): ordered column names, column-name ↦ type-name
strings, optional primary key, unique columns, rows, and per-column
equality indexes. -/
structure Table where
  columns : List String
  types : List (String × String)
  primary_key : Option String
  unique_columns : List String
  rows : List Row
  indexes : List (String × Index)
deriving DecidableEq, Repr

/-- The catalog: table name ↦ table. -/
abbrev DB := List (String × Table)

/-- A statement's result: a plain message (success and error messages are
both plain strings in the source), a row sequence (SELECT), or an uncaught
Python exception. -/
inductive Res where
  | msg (s : String)
  | rows (rs : List Row)
  | fault (s : String)
deriving DecidableEq, Repr

/-! ### Parsed statements

The engine receives the dicts produced by `parser.py`; we embed the
engine over these structured statements. -/

/-- Output of `parse_create_table` (`parser.py` lines 37-43). -/
structure CreateStmt where
  table_name : String
  columns : List String
  types : List String
  primary_key : Option String
  unique_columns : List String
deriving DecidableEq, Repr

/-- Output of `parse_insert` (`parser.py` lines 80-83); `parse_insert`
always produces exactly one raw row (line 82), but the engine loops over
the list. -/
structure InsertStmt where
  table_name : String
  rows : List (List (String × String))
deriving DecidableEq, Repr

/-- One parsed WHERE conjunct (`parse_where_clause`, `parser.py` lines
116-120). -/
structure Cond where
  col : String
  op : String
  val : String
deriving DecidableEq, Repr

/-- Output of `parse_select`'s `join` field (`parser.py` lines 189-193). -/
structure JoinStmt where
  table : String
  left : String
  right : String
deriving DecidableEq, Repr

/-- Output of `parse_select` (`parser.py` lines 219-224). -/
structure SelectStmt where
  table_name : String
  columns : List String
  whereConds : Option (List Cond)
  join : Option JoinStmt
deriving DecidableEq, Repr

/-- Output of `parse_update` (`parser.py` lines 265-269). -/
structure UpdateStmt where
  table_name : String
  update_data : List (String × String)
  whereConds : List Cond
deriving DecidableEq, Repr

/-- Output of `parse_delete` (`parser.py` lines 298-301). -/
structure DeleteStmt where
  table_name : String
  whereConds : List Cond
deriving DecidableEq, Repr

/-! ### Row access and monadic filtering -/

/-- `row[col]`: `KeyError` when the column is absent from the row. -/
def getCell (r : Row) (c : String) : Except String Value :=
  match dget r c with
  | none => .error ("KeyError: " ++ c)
  | some v => .ok v

/-- `row.get(col) == val`: a missing key compares as Python `None`, which
is `==`-unequal to every engine value. -/
def pyEqOpt (o : Option Value) (v : Value) : Bool :=
  match o with
  | some w => pyEq w v
  | none => false

/-- An ordering comparison against `row.get(col)`: comparing a missing
key (`None`) or a string against a number is a `TypeError`. -/
def cmpOpt (f : Value → Value → Option Bool) (o : Option Value) (v : Value) :
    Except String Bool :=
  match o with
  | none => .error "TypeError"
  | some w =>
    match f w v with
    | none => .error "TypeError"
    | some b => .ok b

/-- A Python list comprehension `[r for r in rows if p(r)]` whose
predicate may raise: the first exception aborts the whole comprehension. -/
def filterE (p : Row → Except String Bool) : List Row → Except String (List Row)
  | [] => .ok []
  | r :: rest => do
    let b ← p r
    let tail ← filterE p rest
    if b then pure (r :: tail) else pure tail

/-- The `ops` dict (`engine.py` lines 16-24), mapping operator strings to
comparison functions; a missing operator is a `KeyError` at the lookup
site. -/
def opsLookup : String → Option (Value → Value → Option Bool)
  | ">=" => some pyGe
  | "<=" => some pyLe
  | "!=" => some (fun a b => some (!pyEq a b))
  | "=" => some (fun a b => some (pyEq a b))
  | "==" => some (fun a b => some (pyEq a b))
  | ">" => some pyGt
  | "<" => some pyLt
  | _ => none

/-! ### `apply_where_conditions` (`engine.py` lines 64-144) -/

/-- Resolve a WHERE column against the first joined row: the column name
itself if it is a key, else the first key ending in `"." ++ col`
(`engine.py` lines 83-91). -/
def resolveJoinedCol (first : Row) (col : String) : Option String :=
  if dmem first col then some col
  else (first.map (fun e => e.1)).find? (fun k => ("." ++ col).data.isSuffixOf k.data)

/-- One joined-row filtering step (`engine.py` lines 102-113): `=` and
`!=` use `row.get` (missing keys compare as `None`), ordering operators
raise on missing keys; an operator not in the `if`/`elif` chain leaves the
row set unchanged. -/
def joinedFilterStep (actual : String) (castv : Value) (op : String)
    (filtered : List Row) : Except String (List Row) :=
  match op with
  | "=" => .ok (filtered.filter (fun r => pyEqOpt (dget r actual) castv))
  | "!=" => .ok (filtered.filter (fun r => !pyEqOpt (dget r actual) castv))
  | ">" => filterE (fun r => cmpOpt pyGt (dget r actual) castv) filtered
  | "<" => filterE (fun r => cmpOpt pyLt (dget r actual) castv) filtered
  | ">=" => filterE (fun r => cmpOpt pyGe (dget r actual) castv) filtered
  | "<=" => filterE (fun r => cmpOpt pyLe (dget r actual) castv) filtered
  | _ => .ok filtered

/-- One unjoined filtering step (`engine.py` lines 131-142): every branch
indexes `r[col]` directly, so a missing key is a `KeyError`; an operator
not in the `if`/`elif` chain leaves the row set unchanged. -/
def scanFilterStep (col : String) (castv : Value) (op : String)
    (filtered : List Row) : Except String (List Row) :=
  match op with
  | "=" => filterE (fun r => (getCell r col).map (fun w => pyEq w castv)) filtered
  | "!=" => filterE (fun r => (getCell r col).map (fun w => !pyEq w castv)) filtered
  | ">" => filterE (fun r => do
      let w ← getCell r col
      cmpOpt pyGt (some w) castv) filtered
  | "<" => filterE (fun r => do
      let w ← getCell r col
      cmpOpt pyLt (some w) castv) filtered
  | ">=" => filterE (fun r => do
      let w ← getCell r col
      cmpOpt pyGe (some w) castv) filtered
  | "<=" => filterE (fun r => do
      let w ← getCell r col
      cmpOpt pyLe (some w) castv) filtered
  | _ => .ok filtered

/-- The outcome of processing one WHERE condition in
`apply_where_conditions`: an early `return` of a final row set, a fall
through to the next condition with a narrowed row set, or an uncaught
exception. -/
inductive WhereStep where
  | ret (rows : List Row)
  | next (rows : List Row)
  | fault (s : String)

/-- The body of one iteration of the condition loop of
`apply_where_conditions` (`engine.py` lines 75-142): the `return []`
sites (unresolvable column, failed cast) are `.ret []`, a processed
condition falls through as `.next` with the narrowed row set (for joined
row sets an empty current set skips the whole branch), and uncaught
exceptions are `.fault`.  The equality-index shortcut (lines 126-128)
fires when the current row set still equals the table's full row set, the
operator is `=` and the column is indexed. -/
def whereStep (tbl : Option Table) (isJoined : Bool) (c : Cond)
    (filtered : List Row) : WhereStep :=
  if isJoined then
    match filtered with
    | [] => .next []
    | first :: _ =>
      match resolveJoinedCol first c.col with
      | none => .ret []
      | some actual =>
        match dget first actual with
        | none => .ret []
        | some sample =>
          match castValue (typeOfValue sample) c.val with
          | none => .ret []
          | some castv =>
            match joinedFilterStep actual castv c.op filtered with
            | .error f => .fault f
            | .ok next => .next next
  else
    match tbl with
    | none => .fault "TypeError: NoneType is not subscriptable"
    | some t =>
      if !(t.columns.contains c.col) then .ret []
      else
        match dget t.types c.col with
        | none => .fault ("KeyError: " ++ c.col)
        | some tyName =>
          match PYTHON_TYPES tyName with
          | none => .fault ("KeyError: " ++ tyName)
          | some ct =>
            match castValue ct c.val with
            | none => .ret []
            | some castv =>
              if filtered == t.rows && c.op == "=" && dmem t.indexes c.col then
                .next ((dget ((dget t.indexes c.col).getD []) (pyStr castv)).getD [])
              else
                match scanFilterStep c.col castv c.op filtered with
                | .error f => .fault f
                | .ok next => .next next

/-- `apply_where_conditions(rows, conditions, table, is_joined)`
(`engine.py` lines 64-144).  Conditions are applied in order, each step
either returning early, faulting, or narrowing the current row set. -/
def apply_where_conditions (tbl : Option Table) (isJoined : Bool) :
    List Cond → List Row → Except String (List Row)
  | [], filtered => .ok filtered
  | c :: rest, filtered =>
    match whereStep tbl isJoined c filtered with
    | .ret rows => .ok rows
    | .fault s => .error s
    | .next rows => apply_where_conditions tbl isJoined rest rows

/-! ### `rebuild_indexes` (`engine.py` lines 51-61) -/

/-- The inner loop of `rebuild_indexes`: append one row to every index
column's dict; a row missing an indexed column is a `KeyError`. -/
def addRowToIndexes (row : Row) : List (String × Index) → Except String (List (String × Index))
  | [] => .ok []
  | (c, d) :: rest =>
    match dget row c with
    | none => .error ("KeyError: " ++ c)
    | some v => (addRowToIndexes row rest).map (fun rest2 => (c, dappend d (pyStr v) row) :: rest2)

/-- `rebuild_indexes(table)`: clear every index, then re-add every row to
every index column's dict in row order. -/
def rebuild_indexes (t : Table) : Except String Table :=
  (t.rows.foldlM (fun acc row => addRowToIndexes row acc)
      (t.indexes.map (fun e => (e.1, ([] : Index))))).map
    (fun idx => { t with indexes := idx })

/-! ### CREATE TABLE (`engine.py` lines 154-182) -/

/-- Build the `type_dict` for CREATE: each declared type is lowercased and
must be a supported type name (`engine.py` lines 160-165). -/
def buildTypeDict : List (String × String) → List (String × String) →
    Except String (List (String × String))
  | [], acc => .ok acc
  | (cn, ty) :: rest, acc =>
    let ty2 := pyLower ty
    if (PYTHON_TYPES ty2).isSome then buildTypeDict rest (dset acc cn ty2)
    else .error ("Unsupported column type '" ++ ty2 ++ "'")

/-- The CREATE TABLE handler. -/
def execCreate (db : DB) (stmt : CreateStmt) : Res × DB :=
  if dmem db stmt.table_name then
    (.msg ("Error: Table '" ++ stmt.table_name ++ "' already exists."), db)
  else
    match buildTypeDict (stmt.columns.zip stmt.types) [] with
    | .error m => (.msg m, db)
    | .ok typeDict =>
      let idxCols := stmt.primary_key.toList ++ stmt.unique_columns
      let t : Table :=
        { columns := stmt.columns
          types := typeDict
          primary_key := stmt.primary_key
          unique_columns := stmt.unique_columns
          rows := []
          indexes := idxCols.foldl
            (fun acc c => if c ≠ "" then dset acc c ([] : Index) else acc) [] }
      (.msg ("Table '" ++ stmt.table_name ++ "' created."),
       dset db stmt.table_name t)

/-! ### INSERT (`engine.py` lines 187-228) -/

/-- Validate and cast one raw row in column order (`engine.py` lines
197-205): unknown columns and failed casts are clean error messages; a
type name missing from the table's `types` dict or from `PYTHON_TYPES`
would be an uncaught `KeyError`. -/
def castRowVals (t : Table) : List (String × String) → Except Res Row
  | [] => .ok []
  | (col, v) :: rest =>
    if !(t.columns.contains col) then .error (.msg ("Invalid column '" ++ col ++ "'"))
    else
      match dget t.types col with
      | none => .error (.fault ("KeyError: " ++ col))
      | some tyName =>
        match PYTHON_TYPES tyName with
        | none => .error (.fault ("KeyError: " ++ tyName))
        | some ct =>
          match castValue ct v with
          | none => .error (.msg ("Invalid data type for column '" ++ col ++ "'"))
          | some w => (castRowVals t rest).map (fun r => (col, w) :: r)

/-- The primary-key check (`engine.py` lines 207-212): fetch the row's
primary-key value (`KeyError` when absent), then reject when its
stringification is already a key of the primary key's index. -/
def checkPk (t : Table) (row : Row) : Except Res Unit :=
  match t.primary_key with
  | none => .ok ()
  | some pk =>
    if pk == "" then .ok ()
    else
      match dget row pk with
      | none => .error (.fault ("KeyError: " ++ pk))
      | some pkv =>
        match dget t.indexes pk with
        | none => .ok ()
        | some d =>
          if dmem d (pyStr pkv) then
            .error (.msg ("Primary key '" ++ pk ++ "' violation"))
          else .ok ()

/-- The unique-constraint checks (`engine.py` lines 214-219), in declared
order. -/
def checkUniques (t : Table) (row : Row) : List String → Except Res Unit
  | [] => .ok ()
  | u :: rest =>
    if u ≠ "" ∧ dmem t.indexes u then
      match dget row u with
      | none => .error (.fault ("KeyError: " ++ u))
      | some uv =>
        if dmem ((dget t.indexes u).getD []) (pyStr uv) then
          .error (.msg ("Unique constraint '" ++ u ++ "' violation"))
        else checkUniques t row rest
    else checkUniques t row rest

/-- The INSERT row loop (`engine.py` lines 195-222): rows are validated,
checked and appended one at a time; the indexes are *not* refreshed
between rows of one statement. -/
def insertLoop (t : Table) : List (List (String × String)) → Except Res Table
  | [] => .ok t
  | raw :: rest =>
    match castRowVals t raw with
    | .error r => .error r
    | .ok row =>
      match checkPk t row with
      | .error r => .error r
      | .ok _ =>
        match checkUniques t row t.unique_columns with
        | .error r => .error r
        | .ok _ => insertLoop { t with rows := t.rows ++ [row] } rest

/-- The INSERT handler. -/
def execInsert (db : DB) (stmt : InsertStmt) : Res × DB :=
  match dget db stmt.table_name with
  | none => (.msg ("Error: Table '" ++ stmt.table_name ++ "' does not exist."), db)
  | some t =>
    match insertLoop t stmt.rows with
    | .error r => (r, db)
    | .ok t2 =>
      match rebuild_indexes t2 with
      | .error f => (.fault f, db)
      | .ok t3 =>
        (.msg (natStr stmt.rows.length ++ " row(s) inserted."),
         dset db stmt.table_name t3)

/-! ### SELECT (`engine.py` lines 233-282) -/

/-- `s.split(".")` unpacked into exactly two names; anything else is a
`ValueError`. -/
def splitDot (s : String) : Option (String × String) :=
  match splitOnChar '.' s.data with
  | [a, b] => some (⟨a⟩, ⟨b⟩)
  | _ => none

/-- The nested-loop equality join over one left row (`engine.py` lines
258-263): for each right row with an equal join value, emit the combined
dict whose keys carry the `"<table>."` name qualifiers. -/
def joinOne (t1name t2name lcol rcol : String) (r1 : Row) :
    List Row → Except String (List Row)
  | [] => .ok []
  | r2 :: rest => do
    let a ← getCell r1 lcol
    let b ← getCell r2 rcol
    let tail ← joinOne t1name t2name lcol rcol r1 rest
    if pyEq a b then
      let c1 := r1.map (fun e => (t1name ++ "." ++ e.1, e.2))
      let c2 := r2.map (fun e => (t2name ++ "." ++ e.1, e.2))
      let base := c1.foldl (fun acc e => dset acc e.1 e.2) []
      let comb := c2.foldl (fun acc e => dset acc e.1 e.2) base
      pure (comb :: tail)
    else pure tail

/-- The full nested-loop join (`engine.py` lines 256-264). -/
def joinAll (t1name : String) (t1 : Table) (t2name : String) (t2 : Table)
    (lcol rcol : String) : Except String (List Row) :=
  t1.rows.foldlM (fun acc r1 => (joinOne t1name t2name lcol rcol r1 t2.rows).map (acc ++ ·)) []

/-- One projected row `{col: row[col] for col in columns}` (`engine.py`
line 282): a missing column on any row is a `KeyError`. -/
def projectRow (cols : List String) (r : Row) : Except String Row :=
  cols.foldlM (fun acc c => (getCell r c).map (fun v => dset acc c v)) []

/-- WHERE application plus projection, shared by the joined and unjoined
SELECT paths (`engine.py` lines 266-282). -/
def finishSelect (t? : Option Table) (isJoined : Bool) (rows : List Row)
    (stmt : SelectStmt) : Res :=
  let rowsE : Except String (List Row) := match stmt.whereConds with
    | none => .ok rows
    | some conds => apply_where_conditions t? isJoined conds rows
  match rowsE with
  | .error f => .fault f
  | .ok rows2 =>
    if stmt.columns == ["*"] then .rows rows2
    else
      match rows2 with
      | [] => .rows []
      | first :: _ =>
        match stmt.columns.find? (fun c => !dmem first c) with
        | some c => .msg ("Invalid column '" ++ c ++ "'")
        | none =>
          match rows2.mapM (projectRow stmt.columns) with
          | .error f => .fault f
          | .ok rs => .rows rs

/-- The SELECT handler (read-only: the source never saves the snapshot on
this path). -/
def execSelect (db : DB) (stmt : SelectStmt) : Res :=
  match dget db stmt.table_name with
  | none => .msg ("Error: Table '" ++ stmt.table_name ++ "' does not exist.")
  | some t =>
    match stmt.join with
    | none => finishSelect (some t) false t.rows stmt
    | some j =>
      match dget db j.table with
      | none => .msg ("Error: Table '" ++ j.table ++ "' does not exist.")
      | some t2 =>
        match splitDot j.left with
        | none => .fault "ValueError: unpack"
        | some (lt, lc) =>
          match splitDot j.right with
          | none => .fault "ValueError: unpack"
          | some (_, rc) =>
            if lt ≠ stmt.table_name then .msg "Invalid JOIN condition"
            else
              match joinAll stmt.table_name t j.table t2 lc rc with
              | .error f => .fault f
              | .ok jrows => finishSelect none true jrows stmt

/-! ### UPDATE (`engine.py` lines 288-340) -/

/-- The pre-mutation constraint pass (`engine.py` lines 312-327): for each
assignment, validate the column; when it is the primary key or a unique
column, cast the new value (an uncaught `ValueError` on failure) and scan
the *entire* row set for an existing equal value. -/
def checkUpdateConstraints (t : Table) : List (String × String) → Except Res Unit
  | [] => .ok ()
  | (ucol, uval) :: rest =>
    if !(t.columns.contains ucol) then .error (.msg ("Invalid column '" ++ ucol ++ "'"))
    else
      if t.primary_key == some ucol || t.unique_columns.contains ucol then
        match dget t.types ucol with
        | none => .error (.fault ("KeyError: " ++ ucol))
        | some tyName =>
          match PYTHON_TYPES tyName with
          | none => .error (.fault ("KeyError: " ++ tyName))
          | some ct =>
            match castValue ct uval with
            | none => .error (.fault ("ValueError: could not cast '" ++ uval ++ "'"))
            | some newv =>
              match t.rows.find? (fun r => pyEqOpt (dget r ucol) newv) with
              | some _ =>
                if t.primary_key == some ucol then
                  .error (.msg ("Primary key '" ++ ucol ++ "' violation"))
                else .error (.msg ("Unique constraint '" ++ ucol ++ "' violation"))
              | none => checkUpdateConstraints t rest
      else checkUpdateConstraints t rest

/-- Apply every assignment to one row (`engine.py` lines 331-333), casting
each value to its column's type; a failed cast here is an uncaught
`ValueError`. -/
def applyAssignments (t : Table) (upd : List (String × String)) (r : Row) :
    Except String Row :=
  upd.foldlM (fun acc e =>
    match dget t.types e.1 with
    | none => .error ("KeyError: " ++ e.1)
    | some tyName =>
      match PYTHON_TYPES tyName with
      | none => .error ("KeyError: " ++ tyName)
      | some ct =>
        match castValue ct e.2 with
        | none => .error ("ValueError: could not cast '" ++ e.2 ++ "'")
        | some v => .ok (dset acc e.1 v)) r

/-- The UPDATE handler.  Note (`engine.py` line 330): the mutation loop
runs over *every* row of the table — the WHERE filter is validated but
never applied (the filtering call at line 310 is commented out), and the
reported count is the full row count. -/
def execUpdate (db : DB) (stmt : UpdateStmt) : Res × DB :=
  match dget db stmt.table_name with
  | none => (.msg ("Error: Table '" ++ stmt.table_name ++ "' does not exist."), db)
  | some t =>
    match stmt.whereConds.find? (fun c => !(t.columns.contains c.col)) with
    | some c => (.msg ("Invalid column '" ++ c.col ++ "' in WHERE clause"), db)
    | none =>
      match checkUpdateConstraints t stmt.update_data with
      | .error r => (r, db)
      | .ok _ =>
        match t.rows.mapM (applyAssignments t stmt.update_data) with
        | .error f => (.fault f, db)
        | .ok newRows =>
          match rebuild_indexes { t with rows := newRows } with
          | .error f => (.fault f, db)
          | .ok t3 =>
            (.msg (natStr t.rows.length ++ " row(s) updated."),
             dset db stmt.table_name t3)

/-! ### DELETE (`engine.py` lines 345-382) -/

/-- The DELETE condition loop (`engine.py` lines 361-374): validate the
column, cast the value (a clean message on failure), then keep exactly
the rows *not* satisfying the conjunct; `row[col]` is a `KeyError` on a
missing column and `ops` comparisons can raise `TypeError`. -/
def deleteLoop (t : Table) : List Cond → List Row → Except Res (List Row)
  | [], rows => .ok rows
  | c :: rest, rows =>
    if !(t.columns.contains c.col) then
      .error (.msg ("Invalid column '" ++ c.col ++ "' in WHERE clause"))
    else
      match dget t.types c.col with
      | none => .error (.fault ("KeyError: " ++ c.col))
      | some tyName =>
        match PYTHON_TYPES tyName with
        | none => .error (.fault ("KeyError: " ++ tyName))
        | some ct =>
          match castValue ct c.val with
          | none => .error (.msg ("Invalid WHERE value type for column '" ++ c.col ++ "'"))
          | some castv =>
            match opsLookup c.op with
            | none => .error (.fault ("KeyError: " ++ c.op))
            | some f =>
              match filterE (fun r => do
                  let w ← getCell r c.col
                  match f w castv with
                  | none => .error "TypeError"
                  | some b => .ok (!b)) rows with
              | .error fl => .error (.fault fl)
              | .ok kept => deleteLoop t rest kept

/-- The DELETE handler; the reported count is the original row count minus
the remaining row count. -/
def execDelete (db : DB) (stmt : DeleteStmt) : Res × DB :=
  match dget db stmt.table_name with
  | none => (.msg ("Error: Table '" ++ stmt.table_name ++ "' does not exist."), db)
  | some t =>
    match deleteLoop t stmt.whereConds t.rows with
    | .error r => (r, db)
    | .ok kept =>
      match rebuild_indexes { t with rows := kept } with
      | .error f => (.fault f, db)
      | .ok t3 =>
        (.msg (natStr (t.rows.length - kept.length) ++ " row(s) deleted."),
         dset db stmt.table_name t3)

/-! ### The statement dispatcher -/

/-- A parsed statement, as the engine dispatches it. -/
inductive Stmt where
  | create (c : CreateStmt)
  | insert (i : InsertStmt)
  | select (s : SelectStmt)
  | update (u : UpdateStmt)
  | delete (d : DeleteStmt)
deriving DecidableEq, Repr

/-- Run one statement against the snapshot state; SELECT never writes. -/
def runStmt (db : DB) : Stmt → Res × DB
  | .create c => execCreate db c
  | .insert i => execInsert db i
  | .select s => (execSelect db s, db)
  | .update u => execUpdate db u
  | .delete d => execDelete db d

/-- Run a sequence of statements, keeping only the final snapshot. -/
def runStmts (db : DB) (l : List Stmt) : DB :=
  l.foldl (fun d s => (runStmt d s).2) db

/-! ### The WHERE-condition scanner (`parse_where_clause`, `parser.py`
lines 110-121)

One conjunct string is scanned for the first operator, in the priority
order `>=, <=, !=, =, >, <`, occurring as a substring, and split at that
operator's first occurrence (`part.split(op, 1)`). -/

/-- Split a character list at the first occurrence of `op`
(`part.split(op, 1)`); the pieces do not include the occurrence itself.
When `op` does not occur the result is `(l, [])` (unreached by the
scanner, which tests occurrence first). -/
def splitAtFirst (op : List Char) : List Char → List Char × List Char
  | [] => ([], [])
  | c :: rest =>
    if op.isPrefixOf (c :: rest) then ([], (c :: rest).drop op.length)
    else
      let p := splitAtFirst op rest
      (c :: p.1, p.2)

/-- Python `s.strip(chars)`: drop every leading and trailing character
satisfying `p`. -/
def stripEnds (p : Char → Bool) (l : List Char) : List Char :=
  ((l.dropWhile p).reverse.dropWhile p).reverse

/-- Python `s.strip()` (whitespace). -/
def trimChars (l : List Char) : List Char := stripEnds (fun c => c.isWhitespace) l

/-- `.strip("'").strip('"')` on the raw value token. -/
def stripQuotes (l : List Char) : List Char :=
  stripEnds (fun c => c == '"') (stripEnds (fun c => c == '\'') l)

/-- The operator priority list of `parse_where_clause` (`parser.py` line
112). -/
def condOpsPriority : List (List Char) :=
  [['>', '='], ['<', '='], ['!', '='], ['='], ['>'], ['<']]

/-- Python `op in part`: does `op` occur as a contiguous substring? -/
def occursIn (op : List Char) : List Char → Bool
  | [] => op.isPrefixOf []
  | c :: rest => op.isPrefixOf (c :: rest) || occursIn op rest

/-- The first operator, in priority order, occurring as a substring of the
conjunct (`if op in part`). -/
def findCondOp (part : List Char) : Option (List Char) :=
  condOpsPriority.find? (fun op => occursIn op part)

/-- Scan one WHERE conjunct into `(column, operator, value)` as
`parse_where_clause` does: pick the priority-first occurring operator,
split at its first occurrence, trim the column, and trim and quote-strip
the value.  `none` when no operator occurs (the conjunct is silently
dropped by the source). -/
def parseCondChars (part : List Char) : Option (List Char × List Char × List Char) :=
  (findCondOp part).map (fun op =>
    let p := splitAtFirst op part
    (trimChars p.1, op, stripQuotes (trimChars p.2)))

/-! ### The JSON snapshot (`load_db`/`save_db`, `engine.py` lines 39-48)

`save_db` is `json.dump` of the catalog dict; `load_db` is `json.load`.
The JSON value model keeps Python's `int`/`float` distinction (ints are
serialized without a decimal point and parsed back as ints; floats
round-trip exactly through their `repr`, a documented Python guarantee). -/

/-- A JSON document as Python's `json` module reads and writes it.  A
float node carries the negative-zero mark (`json.dump` writes the float's
`repr`, so `-0.0` is written `-0.0` and read back as the negative zero);
`jNan` is the non-standard `NaN` literal Python's `json` emits and accepts
by default (`allow_nan=True`). -/
inductive Json where
  | jNull
  | jBool (b : Bool)
  | jInt (n : Int)
  | jFloat (num : Int) (exp10 : Nat) (negZero : Bool)
  | jNan
  | jStr (s : String)
  | jArr (xs : List Json)
  | jObj (kvs : List (String × Json))

/-- Serialize one cell value. -/
def valueToJson : Value → Json
  | .vInt n => .jInt n
  | .vStr s => .jStr s
  | .vFloat num exp10 negZero => .jFloat num exp10 negZero
  | .vNan => .jNan
  | .vBool b => .jBool b

/-- Parse one cell value back (`json.load` maps JSON scalars to the same
Python scalar types the engine stores). -/
def jsonToValue : Json → Option Value
  | .jInt n => some (.vInt n)
  | .jStr s => some (.vStr s)
  | .jFloat num exp10 negZero => some (.vFloat num exp10 negZero)
  | .jNan => some .vNan
  | .jBool b => some (.vBool b)
  | _ => none

/-- Serialize a row (a JSON object, insertion order preserved). -/
def rowToJson (r : Row) : Json :=
  .jObj (r.map (fun e => (e.1, valueToJson e.2)))

/-- Parse a row back. -/
def jsonToRow : Json → Option Row
  | .jObj kvs => kvs.mapM (fun e => (jsonToValue e.2).map (fun v => (e.1, v)))
  | _ => none

/-- Serialize one equality index (stringified value ↦ row bucket). -/
def indexToJson (d : Index) : Json :=
  .jObj (d.map (fun e => (e.1, .jArr (e.2.map rowToJson))))

/-- Parse one equality index back. -/
def jsonToIndex : Json → Option Index
  | .jObj kvs => kvs.mapM (fun e =>
      match e.2 with
      | .jArr xs => (xs.mapM jsonToRow).map (fun rs => (e.1, rs))
      | _ => none)
  | _ => none

/-- Serialize a table exactly as the engine's table dict is laid out
(`engine.py` lines 167-174). -/
def tableToJson (t : Table) : Json :=
  .jObj
    [("columns", .jArr (t.columns.map .jStr)),
     ("types", .jObj (t.types.map (fun e => (e.1, .jStr e.2)))),
     ("primary_key", match t.primary_key with
       | some p => .jStr p
       | none => .jNull),
     ("unique_columns", .jArr (t.unique_columns.map .jStr)),
     ("rows", .jArr (t.rows.map rowToJson)),
     ("indexes", .jObj (t.indexes.map (fun e => (e.1, indexToJson e.2))))]

/-- Parse a string list field. -/
def jsonToStrList : Json → Option (List String)
  | .jArr xs => xs.mapM (fun j =>
      match j with
      | .jStr s => some s
      | _ => none)
  | _ => none

/-- Parse a table back from its snapshot object. -/
def jsonToTable : Json → Option Table
  | .jObj [("columns", colsJ), ("types", .jObj tysJ), ("primary_key", pkJ),
           ("unique_columns", uniqJ), ("rows", .jArr rowsJ), ("indexes", .jObj idxJ)] => do
    let columns ← jsonToStrList colsJ
    let types ← tysJ.mapM (fun e =>
      match e.2 with
      | .jStr s => some (e.1, s)
      | _ => none)
    let primary_key ← match pkJ with
      | .jNull => some none
      | .jStr p => some (some p)
      | _ => none
    let unique_columns ← jsonToStrList uniqJ
    let rows ← rowsJ.mapM jsonToRow
    let indexes ← idxJ.mapM (fun e => (jsonToIndex e.2).map (fun d => (e.1, d)))
    pure { columns, types, primary_key, unique_columns, rows, indexes }
  | _ => none

/-- `save_db`: the whole catalog as one JSON document. -/
def dbToJson (db : DB) : Json :=
  .jObj (db.map (fun e => (e.1, tableToJson e.2)))

/-- `load_db`: the whole catalog parsed back from the snapshot. -/
def jsonToDb : Json → Option DB
  | .jObj kvs => kvs.mapM (fun e => (jsonToTable e.2).map (fun t => (e.1, t)))
  | _ => none

/-! ### Specification-side helper definitions (used in theorem statements) -/

/-- The value of a row at a column, defaulted (only used in statements
whose hypotheses guarantee presence). -/
def rowGet (r : Row) (c : String) : Value := (dget r c).getD (.vInt 0)

/-- The per-column bucket dict that a full index rebuild produces:
fold `setdefault(str(row[col]), []).append(row)` over the rows. -/
def buildBuckets (rows : List Row) (c : String) : Index :=
  rows.foldl (fun d r => dappend d (pyStr (rowGet r c)) r) []

/-- Does row `r` hold, at the column of conjunct `c`, a value of the
column's declared type? -/
def rowHasTyped (t : Table) (c : Cond) (r : Row) : Bool :=
  match dget t.types c.col with
  | none => false
  | some ty =>
    match PYTHON_TYPES ty, dget r c.col with
    | some ct, some v => typeOfValue v == ct
    | _, _ => false

/-- Is conjunct `c` fully evaluable on table `t`: known column, resolvable
type, castable value, known operator? -/
def condOk (t : Table) (c : Cond) : Bool :=
  t.columns.contains c.col &&
  (match dget t.types c.col with
   | none => false
   | some ty =>
     match PYTHON_TYPES ty with
     | none => false
     | some ct => (castValue ct c.val).isSome) &&
  (opsLookup c.op).isSome

/-- Does row `r` satisfy conjunct `c` of table `t` (the specification
predicate: the cast comparison value related to the row's cell by the
conjunct's operator)? -/
def satisfiesCond (t : Table) (c : Cond) (r : Row) : Bool :=
  match dget t.types c.col with
  | none => false
  | some ty =>
    match PYTHON_TYPES ty with
    | none => false
    | some ct =>
      match castValue ct c.val, dget r c.col with
      | some castv, some w =>
        match opsLookup c.op with
        | some f => (f w castv).getD false
        | none => false
      | _, _ => false

/-- Is conjunct `c` "bad" for an unjoined SELECT on `t`: an unknown
column, or a resolvable column whose comparison value fails to cast? -/
def condBad (t : Table) (c : Cond) : Bool :=
  !(t.columns.contains c.col) ||
  (match dget t.types c.col with
   | none => false
   | some ty =>
     match PYTHON_TYPES ty with
     | none => false
     | some ct => !(castValue ct c.val).isSome)

/-- Is conjunct `c` cleanly evaluable for an unjoined SELECT on `t`
(known column, resolvable type, castable value — the operator may be
anything: an unknown operator just leaves the row set unchanged)? -/
def condGood (t : Table) (c : Cond) : Bool :=
  t.columns.contains c.col &&
  (match dget t.types c.col with
   | none => false
   | some ty =>
     match PYTHON_TYPES ty with
     | none => false
     | some ct => (castValue ct c.val).isSome)

/-- The key/type shape of a row: its column names with their runtime
types, in order. -/
def shapeOf (r : Row) : List (String × ColType) :=
  r.map (fun e => (e.1, typeOfValue e.2))

/-- Do all rows of a (joined) result set share the shape of the first
row? -/
def rowsUniform : List Row → Bool
  | [] => true
  | f :: rest => rest.all (fun r => shapeOf r == shapeOf f)

/-- Is conjunct `c` "bad" for a joined row set whose first row is
`first`: unresolvable column (per the `endsWith` rule), or a comparison
value that fails to cast to the sample value's type? -/
def condBadJ (first : Row) (c : Cond) : Bool :=
  match resolveJoinedCol first c.col with
  | none => true
  | some actual =>
    match dget first actual with
    | none => true
    | some sample => !(castValue (typeOfValue sample) c.val).isSome

/-- Is conjunct `c` cleanly evaluable on a joined row set whose first row
is `first`: resolvable column with a castable comparison value? -/
def condGoodJ (first : Row) (c : Cond) : Bool :=
  match resolveJoinedCol first c.col with
  | none => false
  | some actual =>
    match dget first actual with
    | none => false
    | some sample => (castValue (typeOfValue sample) c.val).isSome

/-- Does every row hold, at column `c`, a value of type `ct`? -/
def colWellTyped (rows : List Row) (c : String) (ct : ColType) : Bool :=
  rows.all (fun r =>
    match dget r c with
    | some v => typeOfValue v == ct
    | none => false)

/-- Does row `r` supply every indexed column of `t`? -/
def rowHasIndexCols (t : Table) (r : Row) : Bool :=
  t.indexes.all (fun e => dmem r e.1)

/-- Does the candidate row supply every indexed column of `t`, with the
stored rows well-typed at that column relative to the candidate's
value? -/
def rowIndexTyped (t : Table) (crow : Row) : Bool :=
  t.indexes.all (fun e =>
    match dget crow e.1 with
    | some v => colWellTyped t.rows e.1 (typeOfValue v)
    | none => false)

/-! ### Concrete instances used by witnesses and counterexamples -/

/-- A two-row table `t8(id int primary, name varchar)` built by the
engine itself. -/
def C8_db : DB :=
  runStmts []
    [.create ⟨"t8", ["id", "name"], ["int", "varchar"], some "id", []⟩,
     .insert ⟨"t8", [[("id", "1"), ("name", "a")]]⟩,
     .insert ⟨"t8", [[("id", "2"), ("name", "c")]]⟩]

/-- The `t8` table of `C8_db`. -/
def C8_t : Table := (dget C8_db "t8").getD ⟨[], [], none, [], [], []⟩

/-- A one-row table `t4(id int primary, email varchar unique)` built by
the engine itself. -/
def C4_db : DB :=
  runStmts []
    [.create ⟨"t4", ["id", "email"], ["int", "varchar"], some "id", ["email"]⟩,
     .insert ⟨"t4", [[("id", "1"), ("email", "a@x")]]⟩]

/-- The `t4` table of `C4_db`. -/
def C4_t : Table := (dget C4_db "t4").getD ⟨[], [], none, [], [], []⟩

/-- A two-row table `t5(id int primary, name varchar)` built by the
engine itself. -/
def C5_db : DB :=
  runStmts []
    [.create ⟨"t5", ["id", "name"], ["int", "varchar"], some "id", []⟩,
     .insert ⟨"t5", [[("id", "1"), ("name", "a")]]⟩,
     .insert ⟨"t5", [[("id", "2"), ("name", "c")]]⟩]

/-- The `t5` table of `C5_db`. -/
def C5_t : Table := (dget C5_db "t5").getD ⟨[], [], none, [], [], []⟩

/-- A two-row table `t1(id int primary, name varchar)` built by the
engine itself; rows `(1, 'a')` and `(2, 'c')`. -/
def C1_db : DB :=
  runStmts []
    [.create ⟨"t1", ["id", "name"], ["int", "varchar"], some "id", []⟩,
     .insert ⟨"t1", [[("id", "1"), ("name", "a")]]⟩,
     .insert ⟨"t1", [[("id", "2"), ("name", "c")]]⟩]

/-- The UPDATE statement `UPDATE t1 SET name = 'b' WHERE id = 1` as
parsed. -/
def C1_upd : UpdateStmt := ⟨"t1", [("name", "b")], [⟨"id", "=", "1"⟩]⟩

/-- A two-row table `t2(id int primary, name varchar)` built by the
engine itself; rows `(1, 'a')` and `(2, 'c')`. -/
def C2_db : DB :=
  runStmts []
    [.create ⟨"t2", ["id", "name"], ["int", "varchar"], some "id", []⟩,
     .insert ⟨"t2", [[("id", "1"), ("name", "a")]]⟩,
     .insert ⟨"t2", [[("id", "2"), ("name", "c")]]⟩]

/-- The UPDATE statement `UPDATE t2 SET id = 3 WHERE id = 1` as parsed. -/
def C2_upd : UpdateStmt := ⟨"t2", [("id", "3")], [⟨"id", "=", "1"⟩]⟩

/-- A one-row table `t6(id int primary, name varchar)` built by the
engine itself. -/
def C6_db : DB :=
  runStmts []
    [.create ⟨"t6", ["id", "name"], ["int", "varchar"], some "id", []⟩,
     .insert ⟨"t6", [[("id", "1"), ("name", "a")]]⟩]

/-- The `t6` table of `C6_db`. -/
def C6_t : Table := (dget C6_db "t6").getD ⟨[], [], none, [], [], []⟩

/-- A one-row table `tb(f bool)` built by the engine itself; the stored
row holds `f = True` (cast from the raw token `'1'`). -/
def C10_db : DB :=
  runStmts []
    [.create ⟨"tb", ["f"], ["bool"], none, []⟩,
     .insert ⟨"tb", [[("f", "1")]]⟩]

/-- The `tb` table of `C10_db`. -/
def C10_t : Table := (dget C10_db "tb").getD ⟨[], [], none, [], [], []⟩

/-- A one-row table `t3(id int primary)` built by the engine itself. -/
def C3_db : DB :=
  runStmts []
    [.create ⟨"t3", ["id"], ["int"], some "id", []⟩,
     .insert ⟨"t3", [[("id", "1")]]⟩]

/-- The `t3` table of `C3_db`. -/
def C3_t : Table := (dget C3_db "t3").getD ⟨[], [], none, [], [], []⟩

/-- `SELECT * FROM t3 WHERE nosuch = 1` as parsed: the WHERE column does
not exist in `t3`. -/
def C3_stmt : SelectStmt := ⟨"t3", ["*"], some [⟨"nosuch", "=", "1"⟩], none⟩

/-- A concrete joined result row (prefixed keys), for the joined-branch
witness. -/
def C3_jrows : List Row := [[("a.id", Value.vInt 1), ("b.id", Value.vInt 1)]]

/-- An engine-built table `tf(x float primary)` holding the single row
`x = -0.0`: its index keys the row under `str(-0.0)`, which differs from
`str(0.0)` although the two values are `==`-equal. -/
def negZero_db : DB :=
  runStmts []
    [.create ⟨"tf", ["x"], ["float"], some "x", []⟩,
     .insert ⟨"tf", [[("x", "-0.0")]]⟩]

/-- The `tf` table of `negZero_db`. -/
def negZero_t : Table := (dget negZero_db "tf").getD ⟨[], [], none, [], [], []⟩

/-! ## Lemmas: decimal strings and `pyStr` injectivity -/

theorem natCharsAux_append (fuel : Nat) : ∀ (n : Nat) (acc : List Char),
    natCharsAux fuel n acc = natCharsAux fuel n [] ++ acc := by
  induction fuel with
  | zero => intro n acc; simp [natCharsAux]
  | succ f ih =>
    intro n acc
    by_cases h : n < 10
    · simp [natCharsAux, h]
    · simp only [natCharsAux, if_neg h]
      rw [ih (n / 10) (Char.ofNat (48 + n % 10) :: acc),
        ih (n / 10) [Char.ofNat (48 + n % 10)]]
      simp

theorem natCharsAux_fuel (n : Nat) : ∀ (f1 f2 : Nat), n < f1 → n < f2 →
    natCharsAux f1 n [] = natCharsAux f2 n [] := by
  induction n using Nat.strong_induction_on with
  | _ n ih =>
    intro f1 f2 h1 h2
    match f1, f2 with
    | g1 + 1, g2 + 1 =>
      by_cases h : n < 10
      · simp [natCharsAux, h]
      · simp only [natCharsAux, if_neg h]
        rw [natCharsAux_append g1, natCharsAux_append g2]
        have hd : n / 10 < n := Nat.div_lt_self (by omega) (by omega)
        rw [ih (n / 10) hd g1 g2 (by omega) (by omega)]

theorem natChars_lt_ten {n : Nat} (h : n < 10) :
    natChars n = [Char.ofNat (48 + n)] := by
  simp [natChars, natCharsAux, h]

theorem natChars_ge_ten {n : Nat} (h : 10 ≤ n) :
    natChars n = natChars (n / 10) ++ [Char.ofNat (48 + n % 10)] := by
  have hd : n / 10 < n := Nat.div_lt_self (by omega) (by omega)
  have h1 : natChars n = natCharsAux n (n / 10) [Char.ofNat (48 + n % 10)] := by
    show natCharsAux (n + 1) n [] = _
    rw [natCharsAux, if_neg (by omega : ¬ n < 10)]
  rw [h1, natCharsAux_append n]
  congr 1
  exact natCharsAux_fuel (n / 10) n (n / 10 + 1) (by omega) (by omega)

theorem digitChar_toNat {k : Nat} (h : k < 10) :
    (Char.ofNat (48 + k)).toNat = 48 + k := by
  interval_cases k <;> decide

theorem decDigits_append (a : Nat) (l1 l2 : List Char) :
    decDigits a (l1 ++ l2) = decDigits (decDigits a l1) l2 := by
  simp [decDigits, List.foldl_append]

theorem decDigits_natChars (n : Nat) : decDigits 0 (natChars n) = n := by
  induction n using Nat.strong_induction_on with
  | _ n ih =>
    by_cases h : n < 10
    · rw [natChars_lt_ten h]
      simp [decDigits, digitChar_toNat h]
    · have hd : n / 10 < n := Nat.div_lt_self (by omega) (by omega)
      rw [natChars_ge_ten (by omega), decDigits_append, ih (n / 10) hd]
      simp [decDigits, digitChar_toNat (Nat.mod_lt n (by omega))]
      omega

theorem natChars_injective {a b : Nat} (h : natChars a = natChars b) : a = b := by
  have := decDigits_natChars a
  rw [h, decDigits_natChars b] at this
  omega

theorem natChars_mem_digit {n : Nat} {c : Char} (h : c ∈ natChars n) :
    48 ≤ c.toNat ∧ c.toNat ≤ 57 := by
  induction n using Nat.strong_induction_on with
  | _ n ih =>
    by_cases hn : n < 10
    · rw [natChars_lt_ten hn] at h
      rcases List.mem_singleton.mp h with rfl
      rw [digitChar_toNat hn]; omega
    · have hd : n / 10 < n := Nat.div_lt_self (by omega) (by omega)
      rw [natChars_ge_ten (by omega)] at h
      rcases List.mem_append.mp h with h1 | h1
      · exact ih (n / 10) hd h1
      · rcases List.mem_singleton.mp h1 with rfl
        rw [digitChar_toNat (Nat.mod_lt n (by omega))]
        have := Nat.mod_lt n (show 0 < 10 by omega)
        omega

theorem natChars_ne_nil (n : Nat) : natChars n ≠ [] := by
  by_cases h : n < 10
  · rw [natChars_lt_ten h]; simp
  · rw [natChars_ge_ten (by omega)]; simp

theorem minus_not_mem_natChars {n : Nat} : '-' ∉ natChars n := by
  intro h
  have h2 := natChars_mem_digit h
  rw [show ('-').toNat = 45 by decide] at h2
  omega

theorem slash_not_mem_natChars {n : Nat} : '/' ∉ natChars n := by
  intro h
  have h2 := natChars_mem_digit h
  rw [show ('/').toNat = 47 by decide] at h2
  omega

theorem intChars_injective {a b : Int} (h : intChars a = intChars b) : a = b := by
  unfold intChars at h
  by_cases ha : a < 0 <;> by_cases hb : b < 0 <;> simp [ha, hb] at h
  · have := natChars_injective h
    omega
  · exfalso
    have hmem : '-' ∈ natChars b.toNat := by
      rw [← h]; exact List.mem_cons_self _ _
    exact minus_not_mem_natChars hmem
  · exfalso
    have hmem : '-' ∈ natChars a.toNat := by
      rw [h]; exact List.mem_cons_self _ _
    exact minus_not_mem_natChars hmem
  · have := natChars_injective h
    omega

theorem slash_not_mem_intChars {n : Int} : '/' ∉ intChars n := by
  unfold intChars
  by_cases h : n < 0
  · rw [if_pos h]
    intro hm
    rcases List.mem_cons.mp hm with h1 | h1
    · exact absurd h1 (by decide)
    · exact slash_not_mem_natChars h1
  · rw [if_neg h]
    exact slash_not_mem_natChars

theorem append_slash_injective :
    ∀ (a c b d : List Char), '/' ∉ a → '/' ∉ c →
      a ++ '/' :: b = c ++ '/' :: d → a = c ∧ b = d := by
  intro a
  induction a with
  | nil =>
    intro c b d _ hc h
    match c with
    | [] => simpa using h
    | x :: xs =>
      exfalso
      simp at h
      rcases h with ⟨rfl, _⟩
      exact hc (List.mem_cons_self _ _)
  | cons x xs ih =>
    intro c b d ha hc h
    match c with
    | [] =>
      exfalso
      simp at h
      rcases h with ⟨rfl, _⟩
      exact ha (List.mem_cons_self _ _)
    | y :: ys =>
      simp at h
      rcases h with ⟨rfl, h2⟩
      have hxs : '/' ∉ xs := fun hm => ha (List.mem_cons_of_mem _ hm)
      have hys : '/' ∉ ys := fun hm => hc (List.mem_cons_of_mem _ hm)
      rcases ih ys b d hxs hys h2 with ⟨rfl, rfl⟩
      exact ⟨rfl, rfl⟩

theorem floatChars_injective {n1 n2 : Int} {d1 d2 : Nat}
    (h : floatChars n1 d1 = floatChars n2 d2) : n1 = n2 ∧ d1 = d2 := by
  unfold floatChars at h
  rcases append_slash_injective _ _ _ _ slash_not_mem_intChars slash_not_mem_intChars h
    with ⟨h1, h2⟩
  exact ⟨intChars_injective h1, natChars_injective h2⟩

theorem string_mk_injective {a b : List Char} (h : String.mk a = String.mk b) :
    a = b := by
  injection h

/-- Every character of a float rendering is a minus sign, the separator or
a decimal digit. -/
theorem mem_floatChars {n : Int} {d : Nat} {c : Char} (h : c ∈ floatChars n d) :
    c = '-' ∨ c = '/' ∨ (48 ≤ c.toNat ∧ c.toNat ≤ 57) := by
  unfold floatChars at h
  rcases List.mem_append.mp h with h1 | h1
  · unfold intChars at h1
    by_cases hn : n < 0
    · rw [if_pos hn] at h1
      rcases List.mem_cons.mp h1 with rfl | h2
      · exact Or.inl rfl
      · exact Or.inr (Or.inr (natChars_mem_digit h2))
    · rw [if_neg hn] at h1
      exact Or.inr (Or.inr (natChars_mem_digit h1))
  · rcases List.mem_cons.mp h1 with rfl | h2
    · exact Or.inr (Or.inl rfl)
    · exact Or.inr (Or.inr (natChars_mem_digit h2))

theorem dot_not_mem_floatChars {n : Int} {d : Nat} : '.' ∉ floatChars n d := by
  intro h
  rcases mem_floatChars h with h1 | h1 | h1
  · exact absurd h1 (by decide)
  · exact absurd h1 (by decide)
  · rw [show ('.').toNat = 46 by decide] at h1
    omega

theorem letter_n_not_mem_floatChars {n : Int} {d : Nat} : 'n' ∉ floatChars n d := by
  intro h
  rcases mem_floatChars h with h1 | h1 | h1
  · exact absurd h1 (by decide)
  · exact absurd h1 (by decide)
  · rw [show ('n').toNat = 110 by decide] at h1
    omega

/-- `pyStr` is injective on values of one runtime type: within a typed
column, equal stringifications mean equal typed values (in particular the
keys `'-0.0'`-style, `'0.0'`-style and `'nan'` are pairwise distinct). -/
theorem pyStr_injective_typed {a b : Value} (ht : typeOfValue a = typeOfValue b)
    (h : pyStr a = pyStr b) : a = b := by
  cases a <;> cases b <;> simp only [typeOfValue] at ht <;>
    first
    | exact ColType.noConfusion ht
    | skip
  · simp only [pyStr, intStr] at h
    rw [intChars_injective (string_mk_injective h)]
  · simp only [pyStr] at h
    rw [h]
  · rename_i n1 d1 nz n2 d2 nz'
    simp only [pyStr] at h
    have h2 := string_mk_injective h
    cases nz <;> cases nz' <;> simp only [if_pos, if_neg, List.nil_append,
      List.cons_append, List.append_nil, Bool.false_eq_true, if_false, if_true] at h2
    · rcases floatChars_injective h2 with ⟨rfl, rfl⟩
      rfl
    · exact absurd (h2 ▸ (List.mem_cons_of_mem _ (List.mem_cons_self _ _)))
        dot_not_mem_floatChars
    · exact absurd (h2.symm ▸ (List.mem_cons_of_mem _ (List.mem_cons_self _ _)))
        dot_not_mem_floatChars
    · simp only [List.cons.injEq, true_and] at h2
      rcases floatChars_injective h2 with ⟨rfl, rfl⟩
      rfl
  · rename_i n1 d1 nz
    simp only [pyStr] at h
    have h2 : ((if nz then ['-', '.'] else []) ++ floatChars n1 d1) = ['n', 'a', 'n'] := by
      have := congrArg String.data h
      simpa using this
    cases nz <;> simp only [List.nil_append, List.cons_append, Bool.false_eq_true,
      if_false, if_true] at h2
    · exact absurd (h2 ▸ (List.mem_cons_self _ _)) letter_n_not_mem_floatChars
    · simp at h2
  · rename_i n1 d1 nz
    simp only [pyStr] at h
    have h2 : ((if nz then ['-', '.'] else []) ++ floatChars n1 d1) = ['n', 'a', 'n'] := by
      have := congrArg String.data h.symm
      simpa using this
    cases nz <;> simp only [List.nil_append, List.cons_append, Bool.false_eq_true,
      if_false, if_true] at h2
    · exact absurd (h2 ▸ (List.mem_cons_self _ _)) letter_n_not_mem_floatChars
    · simp at h2
  · rfl
  · rename_i b1 b2
    cases b1 <;> cases b2 <;> simp_all [pyStr]

/-- On same-typed values of a non-float type, Python `==` is propositional
equality.  (Floats are the exception: `-0.0 == 0.0` holds between distinct
values, and `nan == nan` fails on equal ones.) -/
theorem pyEq_iff_eq {a b : Value} (ht : typeOfValue a = typeOfValue b)
    (hf : typeOfValue a ≠ ColType.float) :
    pyEq a b = true ↔ a = b := by
  cases a <;> cases b <;> simp [typeOfValue] at ht hf ⊢ <;> simp [pyEq]

/-- On same-typed values of a non-float type, equal stringifications and
Python `==` agree.  On floats they diverge: `-0.0` and `0.0` are `==`-equal
with distinct strings, `nan` is self-`==`-unequal with one string. -/
theorem pyStr_eq_iff_pyEq {a b : Value} (ht : typeOfValue a = typeOfValue b)
    (hf : typeOfValue a ≠ ColType.float) :
    (pyStr a == pyStr b) = pyEq a b := by
  by_cases h : pyEq a b = true
  · rw [h, beq_iff_eq]
    exact congrArg pyStr ((pyEq_iff_eq ht hf).mp h)
  · rw [Bool.eq_false_iff.mpr h]
    apply Bool.eq_false_iff.mpr
    intro hs
    exact h ((pyEq_iff_eq ht hf).mpr (pyStr_injective_typed ht (eq_of_beq hs)))

/-- Every value `float(s)` produces is of float runtime type. -/
theorem floatOfChars_typeOf {l : List Char} {v : Value}
    (h : floatOfChars l = some v) : typeOfValue v = ColType.float := by
  unfold floatOfChars at h
  split at h
  · injection h with h
    rw [← h]
    rfl
  · split at h
    · rcases Option.map_eq_some'.mp h with ⟨p, _, rfl⟩
      rfl
    · rcases Option.map_eq_some'.mp h with ⟨p, _, rfl⟩
      rfl

/-- A successful cast produces a value of the requested type. -/
theorem castValue_typeOf {ct : ColType} {s : String} {v : Value}
    (h : castValue ct s = some v) : typeOfValue v = ct := by
  cases ct <;> simp [castValue] at h
  · rcases h with ⟨n, _, rfl⟩; rfl
  · rw [← h]; rfl
  · exact floatOfChars_typeOf h
  · rw [← h]; rfl

/-! ## Lemmas: dictionaries and index buckets -/

theorem dget_cons {α : Type} (k' : String) (v : α) (m : List (String × α)) (k : String) :
    dget ((k', v) :: m) k = if (k' == k) = true then some v else dget m k := by
  unfold dget
  rw [List.find?]
  by_cases h : (k' == k) = true <;> simp [h]

theorem except_bind_error {ε α β : Type} (e : ε) (g : α → Except ε β) :
    (Except.error e >>= g) = Except.error e := rfl

theorem except_bind_ok {ε α β : Type} (a : α) (g : α → Except ε β) :
    (Except.ok a >>= g) = g a := rfl

theorem except_map_ok {ε α β : Type} (g : α → β) (a : α) :
    (Except.ok a : Except ε α).map g = Except.ok (g a) := rfl

theorem except_map_error {ε α β : Type} (g : α → β) (e : ε) :
    (Except.error e : Except ε α).map g = Except.error e := rfl

theorem dget_dappend_self {α : Type} (m : List (String × List α)) (k : String) (r : α) :
    dget (dappend m k r) k = some ((dget m k).getD [] ++ [r]) := by
  induction m with
  | nil => simp [dappend, dget, List.find?]
  | cons e rest ih =>
    rcases e with ⟨k', l⟩
    by_cases h : (k' == k) = true
    · have hk : k' = k := beq_iff_eq.mp h
      subst hk
      simp [dappend, dget_cons]
    · simp only [dappend, if_neg h]
      rw [dget_cons, dget_cons, if_neg h, if_neg h]
      exact ih

theorem dget_dappend_ne {α : Type} (m : List (String × List α)) {k k2 : String}
    (h : (k == k2) = false) (r : α) : dget (dappend m k r) k2 = dget m k2 := by
  induction m with
  | nil => simp [dappend, dget_cons, h, dget]
  | cons e rest ih =>
    rcases e with ⟨k', l⟩
    by_cases h2 : (k' == k) = true
    · have hk : k' = k := beq_iff_eq.mp h2
      subst hk
      simp only [dappend, if_pos h2]
      rw [dget_cons, dget_cons, if_neg (by simp [h]), if_neg (by simp [h])]
    · simp only [dappend, if_neg h2]
      rw [dget_cons, dget_cons]
      by_cases h3 : (k' == k2) = true
      · rw [if_pos h3, if_pos h3]
      · rw [if_neg h3, if_neg h3]
        exact ih

theorem dget_foldl_dappend (c : String) (k : String) :
    ∀ (rows : List Row) (d0 : Index),
      dget (rows.foldl (fun d r => dappend d (pyStr (rowGet r c)) r) d0) k
      = match dget d0 k with
        | some l => some (l ++ rows.filter (fun r => pyStr (rowGet r c) == k))
        | none =>
          if (rows.filter (fun r => pyStr (rowGet r c) == k)).isEmpty then none
          else some (rows.filter (fun r => pyStr (rowGet r c) == k)) := by
  intro rows
  induction rows with
  | nil =>
    intro d0
    simp only [List.foldl_nil, List.filter_nil]
    match h : dget d0 k with
    | some l => simp
    | none => simp
  | cons r rows ih =>
    intro d0
    simp only [List.foldl_cons]
    rw [ih]
    by_cases hm : (pyStr (rowGet r c) == k) = true
    · have hk : pyStr (rowGet r c) = k := beq_iff_eq.mp hm
      rw [hk, dget_dappend_self]
      simp only [List.filter_cons, hm, if_pos]
      match h0 : dget d0 k with
      | some l => simp
      | none => simp
    · rw [dget_dappend_ne _ (Bool.eq_false_iff.mpr hm)]
      simp only [List.filter_cons, hm]
      match h0 : dget d0 k with
      | some l => simp
      | none => simp

theorem dget_buildBuckets_getD (rows : List Row) (c : String) (k : String) :
    (dget (buildBuckets rows c) k).getD []
      = rows.filter (fun r => pyStr (rowGet r c) == k) := by
  unfold buildBuckets
  rw [dget_foldl_dappend]
  simp only [dget]
  rw [show List.find? (fun e => e.1 == k) ([] : Index) = none from rfl]
  simp only [Option.map_none']
  by_cases h : (rows.filter (fun r => pyStr (rowGet r c) == k)).isEmpty = true
  · simp [h, List.isEmpty_iff.mp h]
  · simp [h]

theorem dmem_buildBuckets (rows : List Row) (c : String) (k : String) :
    dmem (buildBuckets rows c) k
      = !(rows.filter (fun r => pyStr (rowGet r c) == k)).isEmpty := by
  unfold dmem buildBuckets
  rw [dget_foldl_dappend]
  simp only [dget]
  rw [show List.find? (fun e => e.1 == k) ([] : Index) = none from rfl]
  simp only [Option.map_none']
  by_cases h : (rows.filter (fun r => pyStr (rowGet r c) == k)).isEmpty = true
  · simp [h]
  · simp [h]

theorem addRowToIndexes_eq_ok {row : Row} :
    ∀ {idx out : List (String × Index)},
      addRowToIndexes row idx = .ok out
      ↔ ((∀ e ∈ idx, dmem row e.1 = true)
          ∧ out = idx.map (fun e => (e.1, dappend e.2 (pyStr (rowGet row e.1)) row))) := by
  intro idx
  induction idx with
  | nil => intro out; simp [addRowToIndexes]
  | cons e rest ih =>
    intro out
    rcases e with ⟨c, d⟩
    simp only [addRowToIndexes]
    match h : dget row c with
    | none =>
      simp only [List.forall_mem_cons]
      constructor
      · intro hcontra; cases hcontra
      · rintro ⟨⟨hmem, _⟩, _⟩
        rw [dmem, h] at hmem
        simp at hmem
    | some v =>
      dsimp only
      match hrec : addRowToIndexes row rest with
      | .error f =>
        rw [except_map_error]
        simp only [List.forall_mem_cons]
        constructor
        · intro hcontra; cases hcontra
        · rintro ⟨⟨_, hall⟩, _⟩
          have := (@ih (rest.map
            (fun e => (e.1, dappend e.2 (pyStr (rowGet row e.1)) row)))).mpr ⟨hall, rfl⟩
          rw [hrec] at this
          cases this
      | .ok out2 =>
        rcases (@ih out2).mp hrec with ⟨hall, rfl⟩
        rw [except_map_ok]
        simp only [List.map_cons, List.forall_mem_cons]
        constructor
        · intro hok
          injection hok with hok
          refine ⟨⟨by simp [dmem, h], hall⟩, ?_⟩
          rw [← hok]
          simp [rowGet, h]
        · rintro ⟨_, hout⟩
          rw [hout]
          simp [rowGet, h]

theorem foldlM_addRow_eq_ok :
    ∀ (rows : List Row) (idx0 out : List (String × Index)),
      rows.foldlM (fun acc row => addRowToIndexes row acc) idx0 = .ok out
      ↔ ((∀ r ∈ rows, ∀ e ∈ idx0, dmem r e.1 = true)
          ∧ out = idx0.map (fun e =>
              (e.1, rows.foldl (fun d r => dappend d (pyStr (rowGet r e.1)) r) e.2))) := by
  intro rows
  induction rows with
  | nil =>
    intro idx0 out
    simp only [List.foldlM_nil, List.foldl_nil]
    constructor
    · intro h
      injection h with h
      exact ⟨by simp, by rw [← h]; simp⟩
    · rintro ⟨_, rfl⟩
      simp
      rfl
  | cons r rows ih =>
    intro idx0 out
    rw [List.foldlM_cons]
    match hstep : addRowToIndexes r idx0 with
    | .error f =>
      rw [except_bind_error]
      simp only [List.forall_mem_cons]
      constructor
      · intro hcontra; cases hcontra
      · rintro ⟨⟨hr, _⟩, _⟩
        have hok := (@addRowToIndexes_eq_ok r idx0 (idx0.map
          (fun e => (e.1, dappend e.2 (pyStr (rowGet r e.1)) r)))).mpr ⟨hr, rfl⟩
        rw [hstep] at hok
        cases hok
    | .ok idx1 =>
      rcases (@addRowToIndexes_eq_ok r idx0 idx1).mp hstep with ⟨hr, rfl⟩
      rw [except_bind_ok]
      rw [ih]
      simp only [List.map_map, List.forall_mem_cons, Function.comp]
      constructor
      · rintro ⟨hall, rfl⟩
        refine ⟨⟨hr, ?_⟩, rfl⟩
        intro r2 hr2 e he
        have := hall r2 hr2 _ (List.mem_map_of_mem _ he)
        simpa using this
      · rintro ⟨⟨_, hall⟩, rfl⟩
        refine ⟨?_, rfl⟩
        intro r2 hr2 e he
        rcases List.mem_map.mp he with ⟨e0, he0, rfl⟩
        exact hall r2 hr2 e0 he0

theorem dget_map_keyed {α β : Type} (g : String → α → β) (k : String) :
    ∀ (m : List (String × α)),
      dget (m.map (fun e => (e.1, g e.1 e.2))) k
        = (m.find? (fun e => e.1 == k)).map (fun e => g e.1 e.2) := by
  intro m
  induction m with
  | nil => rfl
  | cons e rest ih =>
    rcases e with ⟨k', v⟩
    simp only [List.map_cons]
    rw [dget_cons, List.find?]
    by_cases h : (k' == k) = true
    · simp only [h, if_pos rfl]
      rfl
    · rw [if_neg h]
      simp only [Bool.eq_false_iff.mpr h]
      exact ih

theorem rebuild_eq_ok {t out : Table} :
    rebuild_indexes t = .ok out
    ↔ ((∀ r ∈ t.rows, ∀ e ∈ t.indexes, dmem r e.1 = true)
        ∧ out = { t with
            indexes := t.indexes.map (fun e => (e.1, buildBuckets t.rows e.1)) }) := by
  unfold rebuild_indexes
  cases hf : List.foldlM (fun acc row => addRowToIndexes row acc)
      (List.map (fun e => (e.1, ([] : Index))) t.indexes) t.rows with
  | error f =>
    rw [except_map_error]
    constructor
    · intro h; cases h
    · rintro ⟨hall, _⟩
      have hall2 : ∀ r ∈ t.rows, ∀ e ∈ List.map (fun e => (e.1, ([] : Index))) t.indexes,
          dmem r e.1 = true := by
        intro r hr e he
        rcases List.mem_map.mp he with ⟨e0, he0, rfl⟩
        exact hall r hr e0 he0
      have hok := (foldlM_addRow_eq_ok t.rows _ _).mpr ⟨hall2, rfl⟩
      rw [hf] at hok
      cases hok
  | ok idx =>
    rw [except_map_ok]
    rcases (foldlM_addRow_eq_ok _ _ _).mp hf with ⟨hall0, rfl⟩
    have hmap : (List.map (fun e => (e.1, ([] : Index))) t.indexes).map
          (fun e => (e.1, t.rows.foldl (fun d r => dappend d (pyStr (rowGet r e.1)) r) e.2))
        = t.indexes.map (fun e => (e.1, buildBuckets t.rows e.1)) := by
      rw [List.map_map]
      rfl
    constructor
    · intro h
      injection h with h
      constructor
      · intro r hr e he
        have := hall0 r hr ((fun e => (e.1, ([] : Index))) e)
          (List.mem_map_of_mem _ he)
        simpa using this
      · rw [← h, hmap]
    · rintro ⟨_, hout⟩
      rw [hout, hmap]

theorem sync_complete {t : Table} (h : rebuild_indexes t = .ok t) :
    ∀ r ∈ t.rows, ∀ e ∈ t.indexes, dmem r e.1 = true :=
  (rebuild_eq_ok.mp h).1

theorem sync_indexes {t : Table} (h : rebuild_indexes t = .ok t) :
    t.indexes = t.indexes.map (fun e => (e.1, buildBuckets t.rows e.1)) :=
  congrArg Table.indexes (rebuild_eq_ok.mp h).2

theorem sync_bucket {t : Table} (h : rebuild_indexes t = .ok t) {c : String} {d : Index}
    (hc : dget t.indexes c = some d) : d = buildBuckets t.rows c := by
  rw [sync_indexes h, dget_map_keyed (fun c0 _ => buildBuckets t.rows c0)] at hc
  cases hfind : t.indexes.find? (fun e => e.1 == c) with
  | none => rw [hfind] at hc; cases hc
  | some e =>
    rw [hfind] at hc
    have he : (e.1 == c) = true := by
      have := List.find?_some hfind
      simpa using this
    injection hc with hc
    rw [← hc]
    show buildBuckets t.rows e.1 = buildBuckets t.rows c
    rw [beq_iff_eq.mp he]

theorem filterE_eq_ok {p : Row → Except String Bool} {q : Row → Bool} :
    ∀ {rows : List Row}, (∀ r ∈ rows, p r = .ok (q r)) →
      filterE p rows = .ok (rows.filter q) := by
  intro rows
  induction rows with
  | nil => intro _; rfl
  | cons r rest ih =>
    intro h
    have hr := h r (List.mem_cons_self _ _)
    have hrest := ih (fun r2 hr2 => h r2 (List.mem_cons_of_mem _ hr2))
    simp only [filterE, hr, hrest, except_bind_ok, List.filter_cons]
    by_cases hq : q r = true
    · simp [hq]
      rfl
    · simp [Bool.eq_false_iff.mpr hq]
      rfl

theorem colWellTyped_spec {rows : List Row} {c : String} {ct : ColType}
    (h : colWellTyped rows c ct = true) :
    ∀ r ∈ rows, ∃ v, dget r c = some v ∧ typeOfValue v = ct := by
  intro r hr
  have h2 := List.all_eq_true.mp h r hr
  cases hv : dget r c with
  | none => rw [hv] at h2; cases h2
  | some v =>
    rw [hv] at h2
    exact ⟨v, rfl, beq_iff_eq.mp h2⟩

/-! ## Claim C8: index path and scan path agree on equality filters -/

/-- C8 (corrected).  For an equality WHERE conjunct on an indexed column
of a table whose indexes are in sync with its rows (a fixed point of
`rebuild_indexes`) and whose rows are well-typed at that column, the
engine's WHERE evaluation — which takes the index-bucket shortcut keyed by
the stringified cast value — returns exactly the rows a brute-force scan
with the predicate `row[col] == castvalue` selects, PROVIDED string-key
equality agrees with Python `==` between the cast value and each stored
value.  That proviso is automatic for `int`, `text` and `bool` columns but
fails on floats: `str` separates the `==`-equal pair `-0.0`/`0.0` and
conflates the `==`-unequal pair `nan`/`nan`, so the two paths genuinely
diverge (see the counterexample). -/
theorem C8_index_scan_equiv
    (t : Table) (c raw tyName : String) (ct : ColType) (castv : Value)
    (hsync : rebuild_indexes t = .ok t)
    (hidx : dmem t.indexes c = true)
    (hcol : t.columns.contains c = true)
    (hty : dget t.types c = some tyName)
    (hpt : PYTHON_TYPES tyName = some ct)
    (hcast : castValue ct raw = some castv)
    (htyped : colWellTyped t.rows c ct = true)
    (hagree : ∀ r ∈ t.rows,
      (pyStr (rowGet r c) == pyStr castv) = pyEqOpt (dget r c) castv) :
    apply_where_conditions (some t) false [⟨c, "=", raw⟩] t.rows
      = .ok (t.rows.filter (fun r => pyEqOpt (dget r c) castv)) := by
  obtain ⟨d, hd⟩ : ∃ d, dget t.indexes c = some d := by
    unfold dmem at hidx
    exact Option.isSome_iff_exists.mp hidx
  have hbucket : d = buildBuckets t.rows c := sync_bucket hsync hd
  have hctv : typeOfValue castv = ct := castValue_typeOf hcast
  have hstep : whereStep (some t) false ⟨c, "=", raw⟩ t.rows
      = .next ((dget ((dget t.indexes c).getD []) (pyStr castv)).getD []) := by
    rw [whereStep.eq_def]
    rw [if_neg (by simp)]
    dsimp only
    rw [hcol]
    rw [if_neg (by simp)]
    rw [hty]
    dsimp only
    rw [hpt]
    dsimp only
    rw [hcast]
    dsimp only
    rw [if_pos (by simp [hidx])]
  rw [apply_where_conditions, hstep]
  dsimp only
  rw [apply_where_conditions]
  rw [hd]
  dsimp only [Option.getD_some]
  rw [hbucket, dget_buildBuckets_getD]
  congr 1
  apply List.filter_congr
  intro r hr
  rcases colWellTyped_spec htyped r hr with ⟨v, hv, htv⟩
  have h2 := hagree r hr
  simp only [rowGet, hv, Option.getD_some, pyEqOpt] at h2
  simp only [rowGet, hv, Option.getD_some, pyEqOpt]
  exact h2

/-- C8 witness: the equivalence instantiated on a concrete engine-built
two-row table with primary key `id`, querying `id = 1`. -/
theorem C8_index_scan_equiv_witness :
    apply_where_conditions (some C8_t) false [⟨"id", "=", "1"⟩] C8_t.rows
      = .ok (C8_t.rows.filter (fun r => pyEqOpt (dget r "id") (.vInt 1))) :=
  C8_index_scan_equiv C8_t "id" "1" "int" .int (.vInt 1)
    (by rfl) (by rfl) (by rfl) (by rfl) (by rfl) (by rfl) (by rfl) (by decide)

/-- Counterexample to the literal C8 claim: on the engine-built table
`tf(x float primary)` holding the single row `x = -0.0`, with every
hypothesis of the equivalence satisfied (in-sync indexes, indexed
well-typed column, successful cast of the filter value `0.0`), the index
path of `WHERE x = 0.0` returns no rows — the bucket key `str(0.0)` is
absent, the stored key being `str(-0.0)` — while the brute-force
`row['x'] == 0.0` scan keeps the row, since `-0.0 == 0.0` in Python. -/
theorem C8_counterexample :
    rebuild_indexes negZero_t = .ok negZero_t
    ∧ dmem negZero_t.indexes "x" = true
    ∧ negZero_t.columns.contains "x" = true
    ∧ dget negZero_t.types "x" = some "float"
    ∧ castValue ColType.float "0.0" = some (Value.vFloat 0 0 false)
    ∧ colWellTyped negZero_t.rows "x" ColType.float = true
    ∧ apply_where_conditions (some negZero_t) false [⟨"x", "=", "0.0"⟩] negZero_t.rows
        = .ok []
    ∧ negZero_t.rows.filter (fun r => pyEqOpt (dget r "x") (Value.vFloat 0 0 false))
        = [[("x", Value.vFloat 0 0 true)]] :=
  ⟨rfl, rfl, rfl, rfl, rfl, rfl, rfl, rfl⟩

/-! ## Claim C4: INSERT constraint checks -/

/-- Membership of a stringified value in an in-sync index bucket dict is
exactly typed-value membership in the rows. -/
theorem bucket_dmem_iff {rows : List Row} {c : String} {v : Value}
    (htyped : colWellTyped rows c (typeOfValue v) = true) :
    dmem (buildBuckets rows c) (pyStr v) = true ↔ ∃ r ∈ rows, dget r c = some v := by
  rw [dmem_buildBuckets, Bool.not_eq_true']
  constructor
  · intro h
    match hf : rows.filter (fun r => pyStr (rowGet r c) == pyStr v) with
    | [] => rw [hf] at h; cases h
    | r0 :: rest =>
      have hmem : r0 ∈ rows.filter (fun r => pyStr (rowGet r c) == pyStr v) := by
        rw [hf]; exact List.mem_cons_self _ _
      rcases List.mem_filter.mp hmem with ⟨hr0, hpred⟩
      rcases colWellTyped_spec htyped r0 hr0 with ⟨w, hw, htw⟩
      rw [rowGet, hw, Option.getD_some] at hpred
      have hwv : w = v := pyStr_injective_typed htw (eq_of_beq hpred)
      exact ⟨r0, hr0, by rw [hw, hwv]⟩
  · rintro ⟨r, hr, hv⟩
    have hmem : r ∈ rows.filter (fun r => pyStr (rowGet r c) == pyStr v) :=
      List.mem_filter.mpr ⟨hr, by rw [rowGet, hv, Option.getD_some]; exact beq_self_eq_true _⟩
    rcases hf : rows.filter (fun r => pyStr (rowGet r c) == pyStr v) with _ | ⟨r0, rest⟩
    · rw [hf] at hmem; cases hmem
    · rfl

/-- `checkPk` rejects exactly when some stored row already holds the
inserted primary-key value (in-sync indexes, well-typed column). -/
theorem checkPk_spec {t : Table} {crow : Row} {pk : String} {pkv : Value}
    (hpk : t.primary_key = some pk) (hpkne : pk ≠ "")
    (hsync : rebuild_indexes t = .ok t)
    (hidx : dmem t.indexes pk = true)
    (hpkv : dget crow pk = some pkv)
    (htyped : colWellTyped t.rows pk (typeOfValue pkv) = true) :
    checkPk t crow
      = if ∃ r ∈ t.rows, dget r pk = some pkv
        then .error (.msg ("Primary key '" ++ pk ++ "' violation"))
        else .ok () := by
  obtain ⟨d, hd⟩ : ∃ d, dget t.indexes pk = some d := by
    unfold dmem at hidx
    exact Option.isSome_iff_exists.mp hidx
  have hbucket : d = buildBuckets t.rows pk := sync_bucket hsync hd
  rw [checkPk, hpk]
  dsimp only
  rw [if_neg (by simp [hpkne])]
  rw [hpkv]
  dsimp only
  rw [hd]
  dsimp only
  by_cases hdup : ∃ r ∈ t.rows, dget r pk = some pkv
  · rw [if_pos hdup]
    rw [if_pos (by rw [hbucket]; exact (bucket_dmem_iff htyped).mpr hdup)]
  · rw [if_neg hdup]
    rw [if_neg ?_]
    intro hc
    rw [hbucket] at hc
    exact hdup ((bucket_dmem_iff htyped).mp hc)

/-- `checkUniques` over a sublist of the unique columns: accepts when no
listed column's inserted value is already present; otherwise rejects the
first duplicated column with its violation message. -/
theorem checkUniques_spec {t : Table} {crow : Row} :
    ∀ us : List String,
      (∀ u ∈ us, u ≠ "" ∧ dmem t.indexes u = true
        ∧ ∃ uv, dget crow u = some uv
            ∧ colWellTyped t.rows u (typeOfValue uv) = true
            ∧ dget t.indexes u = some (buildBuckets t.rows u)) →
      ((∀ u ∈ us, ¬ ∃ r ∈ t.rows, dget r u = dget crow u) →
          checkUniques t crow us = .ok ())
      ∧ ((∃ u ∈ us, ∃ r ∈ t.rows, dget r u = dget crow u) →
          ∃ u ∈ us, checkUniques t crow us
            = .error (.msg ("Unique constraint '" ++ u ++ "' violation"))) := by
  intro us
  induction us with
  | nil =>
    intro _
    refine ⟨fun _ => rfl, ?_⟩
    rintro ⟨u, hu, _⟩
    cases hu
  | cons u rest ih =>
    intro hall
    rcases hall u (List.mem_cons_self _ _) with ⟨hne, hidx, uv, huv, htyped, hbucket⟩
    have hrest := ih (fun u2 hu2 => hall u2 (List.mem_cons_of_mem _ hu2))
    have hstep : checkUniques t crow (u :: rest)
        = if ∃ r ∈ t.rows, dget r u = some uv
          then .error (.msg ("Unique constraint '" ++ u ++ "' violation"))
          else checkUniques t crow rest := by
      rw [checkUniques]
      rw [if_pos (by exact ⟨hne, hidx⟩)]
      rw [huv]
      dsimp only
      rw [hbucket]
      dsimp only [Option.getD_some]
      by_cases hdup : ∃ r ∈ t.rows, dget r u = some uv
      · rw [if_pos hdup, if_pos ((bucket_dmem_iff htyped).mpr hdup)]
      · rw [if_neg hdup, if_neg ?_]
        intro hc
        exact hdup ((bucket_dmem_iff htyped).mp hc)
    constructor
    · intro hnone
      rw [hstep]
      rw [if_neg ?_]
      · exact hrest.1 (fun u2 hu2 => hnone u2 (List.mem_cons_of_mem _ hu2))
      · intro hdup
        exact hnone u (List.mem_cons_self _ _) (by rw [huv]; exact hdup)
    · intro hsome
      by_cases hdup : ∃ r ∈ t.rows, dget r u = some uv
      · exact ⟨u, List.mem_cons_self _ _, by rw [hstep, if_pos hdup]⟩
      · rcases hsome with ⟨u2, hu2, hdup2⟩
        rcases List.mem_cons.mp hu2 with rfl | hu2r
        · exact absurd (by rw [huv] at hdup2; exact hdup2) hdup
        · rcases hrest.2 ⟨u2, hu2r, hdup2⟩ with ⟨u3, hu3, hres⟩
          exact ⟨u3, List.mem_cons_of_mem _ hu3, by rw [hstep, if_neg hdup]; exact hres⟩

theorem dmem_exists_entry {α : Type} {m : List (String × α)} {k : String}
    (h : dmem m k = true) : ∃ e ∈ m, e.1 = k ∧ dget m k = some e.2 := by
  unfold dmem at h
  unfold dget at h ⊢
  cases hf : m.find? (fun e => e.1 == k) with
  | none => rw [hf] at h; cases h
  | some e =>
    refine ⟨e, List.mem_of_find?_eq_some hf, ?_, rfl⟩
    have := List.find?_some hf
    simpa using this

/-- C4 (corrected).  A single-row INSERT into a table with a declared
primary key and in-sync indexes: a duplicate on the primary-key column is
rejected with a primary-key violation and no mutation; otherwise a
duplicate on a (nonempty, indexed) unique column is rejected with a
unique-constraint violation and no mutation; otherwise the cast row is
appended and the engine reports one row inserted.  "Duplicate" here means
an existing row holds the *identical* value — equivalently (since `pyStr`
is injective per type) one with the same string representation, which is
what the str-keyed index check actually tests.  This is NOT Python
`==`-equality, as the original claim had it: `-0.0` is `==`-equal to a
stored `0.0` yet is accepted, and `nan` is `==`-unequal to a stored `nan`
yet is rejected (see the counterexample). -/
theorem C4_insert_constraint_enforcement
    (db : DB) (stmt : InsertStmt) (t : Table) (pk : String)
    (raw : List (String × String)) (crow : Row) (pkv : Value)
    (hdb : dget db stmt.table_name = some t)
    (hrows : stmt.rows = [raw])
    (hcast : castRowVals t raw = .ok crow)
    (hpk : t.primary_key = some pk) (hpkne : pk ≠ "")
    (hsync : rebuild_indexes t = .ok t)
    (hidxpk : dmem t.indexes pk = true)
    (hpkv : dget crow pk = some pkv)
    (hityped : rowIndexTyped t crow = true)
    (huniq : t.unique_columns.all (fun u => !(u == "") && dmem t.indexes u) = true) :
    ((∃ r ∈ t.rows, dget r pk = dget crow pk) →
        execInsert db stmt = (.msg ("Primary key '" ++ pk ++ "' violation"), db))
    ∧ ((¬ ∃ r ∈ t.rows, dget r pk = dget crow pk) →
        (∃ u ∈ t.unique_columns, ∃ r ∈ t.rows, dget r u = dget crow u) →
        ∃ u ∈ t.unique_columns,
          execInsert db stmt = (.msg ("Unique constraint '" ++ u ++ "' violation"), db))
    ∧ ((¬ ∃ r ∈ t.rows, dget r pk = dget crow pk) →
        (¬ ∃ u ∈ t.unique_columns, ∃ r ∈ t.rows, dget r u = dget crow u) →
        ∃ t2, execInsert db stmt = (.msg "1 row(s) inserted.", dset db stmt.table_name t2)
          ∧ t2.rows = t.rows ++ [crow]) := by
  -- typing of the primary-key column, extracted from `rowIndexTyped`
  have htypedOf : ∀ c : String, dmem t.indexes c = true →
      ∃ v, dget crow c = some v ∧ colWellTyped t.rows c (typeOfValue v) = true := by
    intro c hc
    rcases dmem_exists_entry hc with ⟨e, he, he1, _⟩
    have h2 := List.all_eq_true.mp hityped e he
    rw [he1] at h2
    cases hv : dget crow c with
    | none => rw [hv] at h2; cases h2
    | some v => rw [hv] at h2; exact ⟨v, rfl, h2⟩
  have hpkt : colWellTyped t.rows pk (typeOfValue pkv) = true := by
    rcases htypedOf pk hidxpk with ⟨v, hv, ht⟩
    rw [hpkv] at hv
    injection hv with hv
    rw [hv]
    exact ht
  -- the bundle of per-unique-column facts for `checkUniques_spec`
  have halls : ∀ u ∈ t.unique_columns, u ≠ "" ∧ dmem t.indexes u = true
      ∧ ∃ uv, dget crow u = some uv
          ∧ colWellTyped t.rows u (typeOfValue uv) = true
          ∧ dget t.indexes u = some (buildBuckets t.rows u) := by
    intro u hu
    have h2 := List.all_eq_true.mp huniq u hu
    rcases Bool.and_eq_true_iff.mp h2 with ⟨hne, hidxu⟩
    have hne2 : u ≠ "" := by
      intro he
      rw [he] at hne
      cases hne
    refine ⟨hne2, hidxu, ?_⟩
    rcases htypedOf u hidxu with ⟨uv, huv, ht⟩
    rcases dmem_exists_entry hidxu with ⟨e, _, _, hd⟩
    exact ⟨uv, huv, ht, by rw [hd, sync_bucket hsync hd]⟩
  have hcu := checkUniques_spec t.unique_columns halls
  have hpkchk := checkPk_spec hpk hpkne hsync hidxpk hpkv hpkt
  -- the duplicate predicates in option form vs value form
  have hdup_iff : (∃ r ∈ t.rows, dget r pk = dget crow pk)
      ↔ (∃ r ∈ t.rows, dget r pk = some pkv) := by
    rw [hpkv]
  refine ⟨?_, ?_, ?_⟩
  · intro hdup
    unfold execInsert
    rw [hdb]
    dsimp only
    rw [hrows, insertLoop, hcast]
    dsimp only
    rw [hpkchk, if_pos (hdup_iff.mp hdup)]
  · intro hnodup hdupu
    rcases hcu.2 hdupu with ⟨u, hu, hres⟩
    refine ⟨u, hu, ?_⟩
    unfold execInsert
    rw [hdb]
    dsimp only
    rw [hrows, insertLoop, hcast]
    dsimp only
    rw [hpkchk, if_neg (fun hc => hnodup (hdup_iff.mpr hc))]
    dsimp only
    rw [hres]
  · intro hnodup hnodupu
    have hok : checkUniques t crow t.unique_columns = .ok () :=
      hcu.1 (fun u hu hd => hnodupu ⟨u, hu, hd⟩)
    -- the rebuild of the extended table succeeds
    have hcomplete : ∀ r ∈ t.rows ++ [crow], ∀ e ∈ t.indexes, dmem r e.1 = true := by
      intro r hr e he
      rcases List.mem_append.mp hr with hr1 | hr1
      · exact sync_complete hsync r hr1 e he
      · have hr2 : r = crow := List.mem_singleton.mp hr1
        subst hr2
        have h2 := List.all_eq_true.mp hityped e he
        unfold dmem
        cases hv : dget r e.1 with
        | none => rw [hv] at h2; simp at h2
        | some v => rfl
    obtain ⟨t3, hreb, hrows3⟩ : ∃ t3,
        rebuild_indexes { t with rows := t.rows ++ [crow] } = .ok t3
          ∧ t3.rows = t.rows ++ [crow] :=
      ⟨_, rebuild_eq_ok.mpr ⟨hcomplete, rfl⟩, rfl⟩
    refine ⟨t3, ?_, hrows3⟩
    unfold execInsert
    rw [hdb]
    dsimp only
    rw [hrows, insertLoop, hcast]
    dsimp only
    rw [hpkchk, if_neg (fun hc => hnodup (hdup_iff.mpr hc))]
    dsimp only
    rw [hok]
    dsimp only
    rw [insertLoop]
    dsimp only
    rw [hreb]
    dsimp only
    rfl

/-- C4 witness: a fresh-key insert on a concrete engine-built table with
primary key `id` and unique column `email` appends the cast row and
reports one row inserted. -/
theorem C4_insert_constraint_enforcement_witness :
    ∃ t2, execInsert C4_db ⟨"t4", [[("id", "2"), ("email", "b@x")]]⟩
        = (.msg "1 row(s) inserted.", dset C4_db "t4" t2)
      ∧ t2.rows = C4_t.rows ++ [[("id", Value.vInt 2), ("email", Value.vStr "b@x")]] :=
  (C4_insert_constraint_enforcement C4_db ⟨"t4", [[("id", "2"), ("email", "b@x")]]⟩
      C4_t "id" [("id", "2"), ("email", "b@x")]
      [("id", Value.vInt 2), ("email", Value.vStr "b@x")] (Value.vInt 2)
      rfl rfl rfl rfl (by decide) rfl rfl rfl rfl rfl).2.2
    (by decide) (by decide)

/-- Counterexample to the literal C4 claim: the engine-built table
`tf(x float primary)` stores the row `x = -0.0`; inserting `x = 0.0` — a
value that is `==`-equal, as a typed value, to the stored one — is NOT
rejected: the str-keyed index check misses it (`str(0.0) ≠ str(-0.0)`),
the engine reports one row inserted, and afterwards the table holds two
rows whose primary-key values compare `==`-equal. -/
theorem C4_counterexample :
    negZero_t.rows = [[("x", Value.vFloat 0 0 true)]]
    ∧ castValue ColType.float "0.0" = some (Value.vFloat 0 0 false)
    ∧ pyEq (Value.vFloat 0 0 true) (Value.vFloat 0 0 false) = true
    ∧ (execInsert negZero_db ⟨"tf", [[("x", "0.0")]]⟩).1 = .msg "1 row(s) inserted."
    ∧ ((dget (execInsert negZero_db ⟨"tf", [[("x", "0.0")]]⟩).2 "tf").getD
          ⟨[], [], none, [], [], []⟩).rows
        = [[("x", Value.vFloat 0 0 true)], [("x", Value.vFloat 0 0 false)]] :=
  ⟨rfl, rfl, rfl, rfl, rfl⟩

/-! ## Claim C5: DELETE semantics -/

theorem pyLt_same_type {a b : Value} (h : typeOfValue a = typeOfValue b) :
    (pyLt a b).isSome = true := by
  cases a <;> cases b <;> simp [typeOfValue] at h <;> simp [pyLt]

theorem opsLookup_same_type_total {op : String} {f : Value → Value → Option Bool}
    {a b : Value} (hop : opsLookup op = some f) (ht : typeOfValue a = typeOfValue b) :
    ∃ bl, f a b = some bl := by
  have hab := pyLt_same_type ht
  have hba := pyLt_same_type ht.symm
  unfold opsLookup at hop
  split at hop <;> try { cases hop }
  all_goals injection hop with hop
  all_goals rw [← hop]
  · exact Option.isSome_iff_exists.mp (by simp [pyGe, pyLe, Option.isSome_map', hba])
  · exact Option.isSome_iff_exists.mp (by simp [pyLe, Option.isSome_map', hab])
  · exact ⟨_, rfl⟩
  · exact ⟨_, rfl⟩
  · exact ⟨_, rfl⟩
  · exact Option.isSome_iff_exists.mp (by simp [pyGt, hba])
  · exact Option.isSome_iff_exists.mp (by simp [hab])

theorem deleteLoop_spec (t : Table) :
    ∀ (conds : List Cond) (rows : List Row),
      (∀ c ∈ conds, condOk t c = true) →
      (∀ c ∈ conds, ∀ r ∈ rows, rowHasTyped t c r = true) →
      deleteLoop t conds rows
        = .ok (rows.filter (fun r => conds.all (fun c => !satisfiesCond t c r))) := by
  intro conds
  induction conds with
  | nil =>
    intro rows _ _
    simp [deleteLoop, List.filter_true]
  | cons c rest ih =>
    intro rows hok htyped
    have hcok := hok c (List.mem_cons_self _ _)
    unfold condOk at hcok
    rcases Bool.and_eq_true_iff.mp hcok with ⟨hcok1, hops⟩
    rcases Bool.and_eq_true_iff.mp hcok1 with ⟨hcol, hcast0⟩
    obtain ⟨ty, hty, ct, hpt, castv, hcast⟩ :
        ∃ ty, dget t.types c.col = some ty ∧ ∃ ct, PYTHON_TYPES ty = some ct
          ∧ ∃ castv, castValue ct c.val = some castv := by
      cases h1 : dget t.types c.col with
      | none => rw [h1] at hcast0; cases hcast0
      | some ty =>
        rw [h1] at hcast0
        dsimp only at hcast0
        cases h2 : PYTHON_TYPES ty with
        | none => rw [h2] at hcast0; cases hcast0
        | some ct =>
          rw [h2] at hcast0
          dsimp only at hcast0
          cases h3 : castValue ct c.val with
          | none => rw [h3] at hcast0; simp at hcast0
          | some castv => exact ⟨ty, rfl, ct, h2, castv, h3⟩
    obtain ⟨f, hf⟩ : ∃ f, opsLookup c.op = some f := Option.isSome_iff_exists.mp hops
    have hctv : typeOfValue castv = ct := castValue_typeOf hcast
    rw [deleteLoop]
    rw [if_neg (by rw [hcol]; simp)]
    rw [hty]
    dsimp only
    rw [hpt]
    dsimp only
    rw [hcast]
    dsimp only
    rw [hf]
    dsimp only
    have hfe : filterE (fun r => do
        let w ← getCell r c.col
        match f w castv with
        | none => Except.error "TypeError"
        | some b => Except.ok (!b)) rows
        = .ok (rows.filter (fun r => !satisfiesCond t c r)) := by
      apply filterE_eq_ok
      intro r hr
      have hrt := htyped c (List.mem_cons_self _ _) r hr
      unfold rowHasTyped at hrt
      rw [hty] at hrt
      dsimp only at hrt
      cases hw : dget r c.col with
      | none => rw [hpt, hw] at hrt; simp at hrt
      | some w =>
        rw [hpt, hw] at hrt
        dsimp only at hrt
        have htw : typeOfValue w = ct := beq_iff_eq.mp hrt
        obtain ⟨bl, hbl⟩ := opsLookup_same_type_total hf (htw.trans hctv.symm)
        have hsat : satisfiesCond t c r = bl := by
          unfold satisfiesCond
          rw [hty]
          dsimp only
          rw [hpt]
          dsimp only
          rw [hcast, hw]
          dsimp only
          rw [hf]
          dsimp only
          rw [hbl]
          rfl
        rw [hsat]
        show (getCell r c.col >>= fun w => match f w castv with
          | none => Except.error "TypeError"
          | some b => Except.ok (!b)) = Except.ok (!bl)
        rw [getCell, hw]
        dsimp only
        rw [except_bind_ok, hbl]
    rw [hfe]
    dsimp only
    rw [ih _ (fun c2 hc2 => hok c2 (List.mem_cons_of_mem _ hc2))
      (fun c2 hc2 r hr => htyped c2 (List.mem_cons_of_mem _ hc2) r
        (List.mem_of_mem_filter hr))]
    congr 1
    rw [List.filter_filter]
    apply List.filter_congr
    intro r _
    simp [List.all_cons, Bool.and_comm]

/-- C5.  For a DELETE whose WHERE conjuncts all name schema columns, cast
successfully and use known operators, over rows supplying those columns
with correctly-typed values: the engine keeps exactly the rows satisfying
*none* of the conjuncts (each conjunct removes the rows satisfying it) and
reports the number of removed rows — the original row count minus the
remaining row count. -/
theorem C5_delete_semantics
    (db : DB) (stmt : DeleteStmt) (t : Table)
    (hdb : dget db stmt.table_name = some t)
    (hok : stmt.whereConds.all (condOk t) = true)
    (htyped : stmt.whereConds.all (fun c => t.rows.all (fun r => rowHasTyped t c r)) = true)
    (hcompl : t.rows.all (rowHasIndexCols t) = true) :
    ∃ t2, execDelete db stmt
        = (.msg (natStr (t.rows.length
              - (t.rows.filter
                  (fun r => stmt.whereConds.all (fun c => !satisfiesCond t c r))).length)
            ++ " row(s) deleted."),
           dset db stmt.table_name t2)
      ∧ t2.rows
          = t.rows.filter (fun r => stmt.whereConds.all (fun c => !satisfiesCond t c r)) := by
  have hdel := deleteLoop_spec t stmt.whereConds t.rows
    (fun c hc => List.all_eq_true.mp hok c hc)
    (fun c hc r hr => List.all_eq_true.mp (List.all_eq_true.mp htyped c hc) r hr)
  set kept := t.rows.filter (fun r => stmt.whereConds.all (fun c => !satisfiesCond t c r))
    with hKdef
  have hkept : ∀ r ∈ kept, ∀ e ∈ t.indexes, dmem r e.1 = true := by
    intro r hr e he
    rw [hKdef] at hr
    have h2 := List.all_eq_true.mp hcompl r (List.mem_of_mem_filter hr)
    exact List.all_eq_true.mp h2 e he
  obtain ⟨t3, hreb, hrows3⟩ : ∃ t3,
      rebuild_indexes { t with rows := kept } = .ok t3 ∧ t3.rows = kept :=
    ⟨_, rebuild_eq_ok.mpr ⟨hkept, rfl⟩, rfl⟩
  refine ⟨t3, ?_, hrows3⟩
  unfold execDelete
  rw [hdb]
  dsimp only
  rw [hdel]
  dsimp only
  rw [hreb]

/-- C5 witness: `DELETE FROM t5 WHERE id = 1` on a concrete engine-built
two-row table. -/
theorem C5_delete_semantics_witness :
    ∃ t2, execDelete C5_db ⟨"t5", [⟨"id", "=", "1"⟩]⟩
        = (.msg (natStr (C5_t.rows.length
              - (C5_t.rows.filter
                  (fun r => [Cond.mk "id" "=" "1"].all
                    (fun c => !satisfiesCond C5_t c r))).length)
            ++ " row(s) deleted."),
           dset C5_db "t5" t2)
      ∧ t2.rows = C5_t.rows.filter
          (fun r => [Cond.mk "id" "=" "1"].all (fun c => !satisfiesCond C5_t c r)) :=
  C5_delete_semantics C5_db ⟨"t5", [⟨"id", "=", "1"⟩]⟩ C5_t rfl rfl rfl rfl

/-! ## Claims C1 and C2: the UPDATE mutation loop ignores WHERE -/

/-- C1.  Evaluating `UPDATE t1 SET name = 'b' WHERE id = 1` against a
two-row table `(1,'a'), (2,'c')`: the engine applies the assignment to
*both* rows — including row `id = 2`, which does not satisfy the WHERE
clause — and reports `"2 row(s) updated."` (the full row count), because
the mutation loop at `engine.py` line 330 iterates every row: the WHERE
filter is validated but never applied (the filtering call at line 310 is
commented out).  The claim (one matching row updated, count 1) fails. -/
theorem C1_update_ignores_where :
    (execUpdate C1_db C1_upd).1 = .msg "2 row(s) updated."
    ∧ ∃ t, dget (execUpdate C1_db C1_upd).2 "t1" = some t
        ∧ t.rows = [[("id", Value.vInt 1), ("name", Value.vStr "b")],
                    [("id", Value.vInt 2), ("name", Value.vStr "b")]] :=
  ⟨rfl, _, rfl, rfl⟩

/-- C2.  A successful statement sequence after which two rows share the
primary-key value: `UPDATE t2 SET id = 3 WHERE id = 1` passes the
pre-mutation duplicate scan (no row holds `id = 3` yet), succeeds with
`"2 row(s) updated."`, and rewrites *every* row's `id` to `3` — leaving
both rows of the table with primary-key value `3`.  The primary-key
uniqueness invariant fails after a successful UPDATE. -/
theorem C2_pk_uniqueness_violated :
    (execUpdate C2_db C2_upd).1 = .msg "2 row(s) updated."
    ∧ ∃ t, dget (execUpdate C2_db C2_upd).2 "t2" = some t
        ∧ t.primary_key = some "id"
        ∧ t.rows.map (fun r => dget r "id")
            = [some (Value.vInt 3), some (Value.vInt 3)] :=
  ⟨rfl, _, rfl, rfl, rfl⟩

/-! ## Claim C6: partial-column INSERT -/

/-- C6 counterexample.  `INSERT INTO t6 (name) VALUES ('z')` on a table
whose primary key `id` is not among the supplied columns does *not*
complete: the engine raises an uncaught `KeyError` fetching `row[pk]`
(`engine.py` line 210), so the claim's "completes without fault ...
including tables that declare a primary key ... not among the supplied
columns" is false. -/
theorem C6_counterexample :
    execInsert C6_db ⟨"t6", [[("name", "z")]]⟩ = (.fault "KeyError: id", C6_db) := rfl

/-- The keys of a cast row are the supplied raw keys, in order. -/
theorem castRowVals_keys {t : Table} :
    ∀ {raw : List (String × String)} {crow : Row},
      castRowVals t raw = .ok crow →
      crow.map (fun e => e.1) = raw.map (fun e => e.1) := by
  intro raw
  induction raw with
  | nil =>
    intro crow h
    injection h with h
    rw [← h]
    rfl
  | cons e rest ih =>
    intro crow h
    rcases e with ⟨col, v⟩
    unfold castRowVals at h
    by_cases hc : t.columns.contains col = true
    · rw [if_neg (by rw [hc]; simp)] at h
      cases h1 : dget t.types col with
      | none => rw [h1] at h; cases h
      | some ty =>
        rw [h1] at h
        dsimp only at h
        cases h2 : PYTHON_TYPES ty with
        | none => rw [h2] at h; cases h
        | some ct =>
          rw [h2] at h
          dsimp only at h
          cases h3 : castValue ct v with
          | none => rw [h3] at h; cases h
          | some w =>
            rw [h3] at h
            dsimp only at h
            cases h4 : castRowVals t rest with
            | error r => rw [h4] at h; cases h
            | ok crest =>
              rw [h4, except_map_ok] at h
              injection h with h
              rw [← h]
              simp [ih h4]
    · rw [if_pos (by rw [Bool.eq_false_iff.mpr hc]; simp)] at h
      cases h

/-- C6 (amended).  A single-row INSERT supplying a strict subset of the
declared columns, with every supplied value casting successfully and no
constraint check rejecting, is permitted *provided every indexed column
(the primary key and the indexed unique columns) is among the supplied
columns*: the cast row is appended with exactly the supplied keys (the
unsupplied columns stay absent) and the engine reports one row
inserted.  (When an indexed column is missing, the engine instead raises
an uncaught `KeyError` — see the counterexample.) -/
theorem C6_partial_insert_ok
    (db : DB) (stmt : InsertStmt) (t : Table)
    (raw : List (String × String)) (crow : Row)
    (hdb : dget db stmt.table_name = some t)
    (hrows : stmt.rows = [raw])
    (hcast : castRowVals t raw = .ok crow)
    (_hstrict : ∃ col ∈ t.columns, col ∉ raw.map (fun e => e.1))
    (hpkok : checkPk t crow = .ok ())
    (huok : checkUniques t crow t.unique_columns = .ok ())
    (hidxcols : rowHasIndexCols t crow = true)
    (hcompl : t.rows.all (rowHasIndexCols t) = true) :
    ∃ t2, execInsert db stmt = (.msg "1 row(s) inserted.", dset db stmt.table_name t2)
      ∧ t2.rows = t.rows ++ [crow]
      ∧ crow.map (fun e => e.1) = raw.map (fun e => e.1) := by
  have hcomplete : ∀ r ∈ t.rows ++ [crow], ∀ e ∈ t.indexes, dmem r e.1 = true := by
    intro r hr e he
    rcases List.mem_append.mp hr with hr1 | hr1
    · exact List.all_eq_true.mp (List.all_eq_true.mp hcompl r hr1) e he
    · have hr2 : r = crow := List.mem_singleton.mp hr1
      subst hr2
      exact List.all_eq_true.mp hidxcols e he
  obtain ⟨t3, hreb, hrows3⟩ : ∃ t3,
      rebuild_indexes { t with rows := t.rows ++ [crow] } = .ok t3
        ∧ t3.rows = t.rows ++ [crow] :=
    ⟨_, rebuild_eq_ok.mpr ⟨hcomplete, rfl⟩, rfl⟩
  refine ⟨t3, ?_, hrows3, castRowVals_keys hcast⟩
  unfold execInsert
  rw [hdb]
  dsimp only
  rw [hrows, insertLoop, hcast]
  dsimp only
  rw [hpkok]
  dsimp only
  rw [huok]
  dsimp only
  rw [insertLoop]
  dsimp only
  rw [hreb]
  dsimp only
  rfl

/-- C6 witness: inserting only the primary-key column (a strict subset of
`t6`'s two columns) succeeds and stores the row without the `name`
column. -/
theorem C6_partial_insert_ok_witness :
    ∃ t2, execInsert C6_db ⟨"t6", [[("id", "5")]]⟩
        = (.msg "1 row(s) inserted.", dset C6_db "t6" t2)
      ∧ t2.rows = C6_t.rows ++ [[("id", Value.vInt 5)]]
      ∧ ([(("id" : String), Value.vInt 5)]).map (fun e => e.1)
          = ([(("id" : String), ("5" : String))]).map (fun e => e.1) :=
  C6_partial_insert_ok C6_db ⟨"t6", [[("id", "5")]]⟩ C6_t
    [("id", "5")] [("id", Value.vInt 5)]
    rfl rfl rfl ⟨"name", by decide, by decide⟩ rfl rfl rfl rfl

/-! ## Claim C7: snapshot round-trip -/

theorem mapM_map_rt {α β : Type} (f : α → β) (g : β → Option α) :
    ∀ (l : List α), (∀ a ∈ l, g (f a) = some a) → (l.map f).mapM g = some l := by
  intro l
  induction l with
  | nil => intro _; rfl
  | cons a rest ih =>
    intro h
    rw [List.map_cons, List.mapM_cons, h a (List.mem_cons_self _ _),
      ih (fun x hx => h x (List.mem_cons_of_mem _ hx))]
    rfl

theorem jsonToValue_valueToJson (v : Value) : jsonToValue (valueToJson v) = some v := by
  cases v <;> rfl

theorem jsonToRow_rowToJson (r : Row) : jsonToRow (rowToJson r) = some r := by
  unfold rowToJson jsonToRow
  apply mapM_map_rt
  intro a _
  rw [jsonToValue_valueToJson]
  rfl

theorem jsonToIndex_indexToJson (d : Index) : jsonToIndex (indexToJson d) = some d := by
  unfold indexToJson jsonToIndex
  apply mapM_map_rt
  intro a _
  dsimp only
  rw [mapM_map_rt rowToJson jsonToRow a.2 (fun r _ => jsonToRow_rowToJson r)]
  rfl

theorem jsonToStrList_rt (l : List String) :
    jsonToStrList (.jArr (l.map .jStr)) = some l := by
  unfold jsonToStrList
  exact mapM_map_rt _ _ l (fun a _ => rfl)

theorem jsonToTable_tableToJson (t : Table) : jsonToTable (tableToJson t) = some t := by
  cases hpk : t.primary_key with
  | none =>
    unfold tableToJson
    rw [hpk]
    dsimp only
    rw [jsonToTable]
    rw [jsonToStrList_rt]
    rw [mapM_map_rt (fun e => (e.1, Json.jStr e.2))
      (fun e => match e.2 with
        | .jStr s => some (e.1, s)
        | _ => none) t.types (fun a _ => rfl)]
    rw [jsonToStrList_rt]
    rw [mapM_map_rt rowToJson jsonToRow t.rows (fun r _ => jsonToRow_rowToJson r)]
    rw [mapM_map_rt (fun e => (e.1, indexToJson e.2))
      (fun e => (jsonToIndex e.2).map (fun d => (e.1, d))) t.indexes
      (fun a _ => by dsimp only; rw [jsonToIndex_indexToJson a.2]; rfl)]
    dsimp only
    rw [← hpk]
    rfl
  | some p =>
    unfold tableToJson
    rw [hpk]
    dsimp only
    rw [jsonToTable]
    rw [jsonToStrList_rt]
    rw [mapM_map_rt (fun e => (e.1, Json.jStr e.2))
      (fun e => match e.2 with
        | .jStr s => some (e.1, s)
        | _ => none) t.types (fun a _ => rfl)]
    rw [jsonToStrList_rt]
    rw [mapM_map_rt rowToJson jsonToRow t.rows (fun r _ => jsonToRow_rowToJson r)]
    rw [mapM_map_rt (fun e => (e.1, indexToJson e.2))
      (fun e => (jsonToIndex e.2).map (fun d => (e.1, d))) t.indexes
      (fun a _ => by dsimp only; rw [jsonToIndex_indexToJson a.2]; rfl)]
    dsimp only
    rw [← hpk]
    rfl

theorem jsonToDb_dbToJson (db : DB) : jsonToDb (dbToJson db) = some db := by
  unfold dbToJson jsonToDb
  apply mapM_map_rt
  intro a _
  rw [jsonToTable_tableToJson]
  rfl

/-- C7.  Serializing the catalog to its JSON snapshot and parsing it back
is the identity, so any SELECT (in particular `SELECT * FROM t`) evaluated
against the reloaded catalog returns exactly the same rows as against the
catalog before the save/reload. -/
theorem C7_snapshot_roundtrip (db : DB) (stmt : SelectStmt) :
    jsonToDb (dbToJson db) = some db
    ∧ execSelect ((jsonToDb (dbToJson db)).getD []) stmt = execSelect db stmt := by
  have h := jsonToDb_dbToJson db
  exact ⟨h, by rw [h]; rfl⟩

/-! ## Claim C9: WHERE-conjunct operator selection -/

theorem splitAtFirst_spec {op : List Char} :
    ∀ {l : List Char}, occursIn op l = true →
      l = (splitAtFirst op l).1 ++ op ++ (splitAtFirst op l).2
      ∧ ∀ i < (splitAtFirst op l).1.length, op.isPrefixOf (l.drop i) = false := by
  intro l
  induction l with
  | nil =>
    intro h
    unfold occursIn at h
    have hop : op = [] := by
      have := List.isPrefixOf_iff_prefix.mp h
      exact List.prefix_nil.mp this
    subst hop
    exact ⟨rfl, by intro i hi; simp [splitAtFirst] at hi⟩
  | cons c rest ih =>
    intro h
    by_cases hp : op.isPrefixOf (c :: rest) = true
    · simp only [splitAtFirst, if_pos hp]
      refine ⟨?_, by intro i hi; simp at hi⟩
      rcases List.isPrefixOf_iff_prefix.mp hp with ⟨tl, htl⟩
      rw [← htl, List.drop_left]
      simp
    · have h2 : occursIn op rest = true := by
        rw [occursIn, Bool.or_eq_true] at h
        rcases h with h | h
        · exact absurd h hp
        · exact h
      have hsplit : splitAtFirst op (c :: rest)
          = (c :: (splitAtFirst op rest).1, (splitAtFirst op rest).2) := by
        simp [splitAtFirst, hp]
      rcases ih h2 with ⟨heq, hpos⟩
      rw [hsplit]
      constructor
      · show c :: rest = (c :: (splitAtFirst op rest).1) ++ op ++ (splitAtFirst op rest).2
        conv_lhs => rw [heq]
        simp
      · intro i hi
        simp only [List.length_cons] at hi
        match i with
        | 0 => exact Bool.eq_false_iff.mpr hp
        | i + 1 =>
          rw [List.drop_succ_cons]
          exact hpos i (by omega)

/-- C9.  `parse_where_clause` scans each conjunct for the first operator,
in the priority order `>=, <=, !=, =, >, <`, occurring as a substring
(`parser.py` lines 111-121): the selected operator is the priority-first
occurring one (every strictly earlier operator of the priority list does
not occur in the conjunct at all), the conjunct is split at that
operator's *first* occurrence into the trimmed column text and the
trimmed, quote-stripped value text — and in particular a conjunct
containing `>=` is never parsed with operator `=` or `>`. -/
theorem C9_operator_priority
    (part col op val : List Char)
    (h : parseCondChars part = some (col, op, val)) :
    (occursIn op part = true
      ∧ ∃ pre post, condOpsPriority = pre ++ op :: post
          ∧ ∀ op2 ∈ pre, occursIn op2 part = false)
    ∧ (∃ within after, part = within ++ op ++ after
        ∧ col = trimChars within ∧ val = stripQuotes (trimChars after)
        ∧ ∀ i < within.length, op.isPrefixOf (part.drop i) = false)
    ∧ (occursIn ['>', '='] part = true → op ≠ ['='] ∧ op ≠ ['>']) := by
  unfold parseCondChars at h
  cases hf : findCondOp part with
  | none => rw [hf] at h; cases h
  | some op0 =>
    rw [hf] at h
    dsimp only [Option.map_some'] at h
    injection h with h
    injection h with h1 h
    injection h with h2 h3
    subst h1
    subst h2
    subst h3
    have hfind := hf
    unfold findCondOp at hfind
    rw [List.find?_eq_some] at hfind
    rcases hfind with ⟨hocc, pre, post, hlist, hall⟩
    rcases splitAtFirst_spec hocc with ⟨heq, hpos⟩
    refine ⟨⟨hocc, pre, post, hlist, ?_⟩, ⟨_, _, heq, rfl, rfl, hpos⟩, ?_⟩
    · intro op2 hop2
      have := hall op2 hop2
      simpa using this
    · intro hge
      have hsel : findCondOp part = some ['>', '='] := by
        unfold findCondOp condOpsPriority
        exact List.find?_cons_of_pos _ hge
      rw [hsel] at hf
      injection hf with hf
      rw [← hf]
      exact ⟨by decide, by decide⟩

/-- C9 witness: the conjunct `"id >= 10"` is parsed with operator `>=`
(not `=` or `>`), split at its first occurrence. -/
theorem C9_operator_priority_witness :
    (occursIn ['>', '='] ("id >= 10".data) = true
      ∧ ∃ pre post, condOpsPriority = pre ++ ['>', '='] :: post
          ∧ ∀ op2 ∈ pre, occursIn op2 ("id >= 10".data) = false)
    ∧ (∃ within after, ("id >= 10".data) = within ++ ['>', '='] ++ after
        ∧ ['i', 'd'] = trimChars within
        ∧ ['1', '0'] = stripQuotes (trimChars after)
        ∧ ∀ i < within.length, (['>', '='].isPrefixOf (("id >= 10".data).drop i)) = false)
    ∧ (occursIn ['>', '='] ("id >= 10".data) = true
        → (['>', '='] : List Char) ≠ ['='] ∧ (['>', '='] : List Char) ≠ ['>']) :=
  C9_operator_priority ("id >= 10".data) ['i', 'd'] ['>', '='] ['1', '0'] (by rfl)

/-! ## Claim C10: `bool` casting is Python truthiness -/

/-- C10.  For a column declared `bool` or `boolean`, the INSERT cast loop
(`engine.py` lines 197-205) stores `bool(raw)`: the boolean `True` for
*every* nonempty raw token — including `'false'`, `'0'` and `'False'` —
and `False` exactly for the empty token; and the WHERE comparison path
(`engine.py` lines 119-124) casts the comparison value through the same
truthiness rule before filtering. -/
theorem C10_bool_truthiness
    (t : Table) (col ty raw : String)
    (hty : dget t.types col = some ty)
    (hb : ty = "bool" ∨ ty = "boolean")
    (hcol : t.columns.contains col = true)
    (hnoidx : dmem t.indexes col = false)
    (htyped : colWellTyped t.rows col .bool = true) :
    castRowVals t [(col, raw)] = .ok [(col, .vBool (!raw.data.isEmpty))]
    ∧ apply_where_conditions (some t) false [⟨col, "=", raw⟩] t.rows
        = .ok (t.rows.filter
            (fun r => pyEqOpt (dget r col) (.vBool (!raw.data.isEmpty)))) := by
  have hpt : PYTHON_TYPES ty = some .bool := by
    rcases hb with rfl | rfl <;> rfl
  constructor
  · unfold castRowVals
    rw [if_neg (by rw [hcol]; simp)]
    rw [hty]
    dsimp only
    rw [hpt]
    dsimp only
    rfl
  · have hstep : whereStep (some t) false ⟨col, "=", raw⟩ t.rows
        = .next (t.rows.filter
            (fun r => pyEqOpt (dget r col) (.vBool (!raw.data.isEmpty)))) := by
      rw [whereStep.eq_def]
      rw [if_neg (by simp)]
      dsimp only
      rw [hcol]
      rw [if_neg (by simp)]
      rw [hty]
      dsimp only
      rw [hpt]
      dsimp only
      rw [show castValue ColType.bool raw = some (.vBool (!raw.data.isEmpty)) from rfl]
      dsimp only
      rw [if_neg (by rw [hnoidx]; simp)]
      have hscan : scanFilterStep col (.vBool (!raw.data.isEmpty)) "=" t.rows
          = .ok (t.rows.filter
              (fun r => pyEqOpt (dget r col) (.vBool (!raw.data.isEmpty)))) := by
        unfold scanFilterStep
        apply filterE_eq_ok
        intro r hr
        rcases colWellTyped_spec htyped r hr with ⟨w, hw, _⟩
        rw [getCell, hw]
        dsimp only [pyEqOpt]
        rfl
      rw [hscan]
    rw [apply_where_conditions, hstep]
    dsimp only
    rw [apply_where_conditions]

/-- C10 witness: inserting the raw token `'false'` into a `bool` column
stores the boolean `True`, and a WHERE comparison against `'false'`
compares rows to `True`. -/
theorem C10_bool_truthiness_witness :
    castRowVals C10_t [("f", "false")] = .ok [("f", .vBool (!("false".data.isEmpty)))]
    ∧ apply_where_conditions (some C10_t) false [⟨"f", "=", "false"⟩] C10_t.rows
        = .ok (C10_t.rows.filter
            (fun r => pyEqOpt (dget r "f") (.vBool (!("false".data.isEmpty))))) :=
  C10_bool_truthiness C10_t "f" "bool" "false" rfl (Or.inl rfl) rfl rfl rfl

/-! ## Claim C3: unknown filter columns and failed casts in SELECT -/

/-- Rows of equal shape have equal key sequences. -/
theorem shape_keys {r1 r2 : Row} (h : shapeOf r1 = shapeOf r2) :
    r1.map (fun e => e.1) = r2.map (fun e => e.1) := by
  have h2 := congrArg (List.map (fun e => e.1)) h
  unfold shapeOf at h2
  simpa [List.map_map, Function.comp] using h2

/-- Rows of equal shape agree on the runtime type of every lookup. -/
theorem shape_dget_type {r1 : Row} :
    ∀ {r2 : Row}, shapeOf r1 = shapeOf r2 → ∀ k,
      (dget r1 k).map typeOfValue = (dget r2 k).map typeOfValue := by
  induction r1 with
  | nil =>
    intro r2 h k
    cases r2 with
    | nil => rfl
    | cons e rest => cases h
  | cons e1 rest1 ih =>
    intro r2 h k
    cases r2 with
    | nil => cases h
    | cons e2 rest2 =>
      unfold shapeOf at h
      simp only [List.map_cons, List.cons.injEq] at h
      rcases h with ⟨hhead, htail⟩
      rcases e1 with ⟨k1, v1⟩
      rcases e2 with ⟨k2, v2⟩
      simp only [Prod.mk.injEq] at hhead
      rcases hhead with ⟨hk, hv⟩
      subst hk
      rw [dget_cons, dget_cons]
      by_cases hkk : (k1 == k) = true
      · rw [if_pos hkk, if_pos hkk]
        simp [hv]
      · rw [if_neg hkk, if_neg hkk]
        exact ih htail k

/-- Rows of equal shape agree on membership of every key. -/
theorem shape_dmem {r1 r2 : Row} (h : shapeOf r1 = shapeOf r2) (k : String) :
    dmem r1 k = dmem r2 k := by
  have h2 := shape_dget_type h k
  unfold dmem
  cases ha : dget r1 k with
  | none =>
    cases hb : dget r2 k with
    | none => rfl
    | some b => rw [ha, hb] at h2; cases h2
  | some a =>
    cases hb : dget r2 k with
    | none => rw [ha, hb] at h2; cases h2
    | some b => rfl

/-- Rows of equal shape resolve a joined WHERE column identically. -/
theorem shape_resolve {r1 r2 : Row} (h : shapeOf r1 = shapeOf r2) (col : String) :
    resolveJoinedCol r1 col = resolveJoinedCol r2 col := by
  unfold resolveJoinedCol
  rw [shape_dmem h, shape_keys h]

/-- Rows of equal shape classify a joined conjunct identically. -/
theorem shape_condBadJ {r1 r2 : Row} (h : shapeOf r1 = shapeOf r2) (c : Cond) :
    condBadJ r1 c = condBadJ r2 c := by
  unfold condBadJ
  rw [shape_resolve h]
  cases hres : resolveJoinedCol r2 c.col with
  | none => rfl
  | some actual =>
    dsimp only
    have h2 := shape_dget_type h actual
    cases ha : dget r1 actual with
    | none =>
      cases hb : dget r2 actual with
      | none => rfl
      | some b => rw [ha, hb] at h2; cases h2
    | some a =>
      cases hb : dget r2 actual with
      | none => rw [ha, hb] at h2; cases h2
      | some b =>
        rw [ha, hb] at h2
        simp only [Option.map_some', Option.some.injEq] at h2
        dsimp only
        rw [h2]

/-- A cleanly evaluable joined conjunct is not a bad one. -/
theorem condGoodJ_not_bad {first : Row} {c : Cond} (h : condGoodJ first c = true) :
    condBadJ first c = false := by
  unfold condGoodJ at h
  unfold condBadJ
  cases hres : resolveJoinedCol first c.col with
  | none => rw [hres] at h; cases h
  | some actual =>
    rw [hres] at h
    dsimp only at h ⊢
    cases hs : dget first actual with
    | none => rw [hs] at h; cases h
    | some sample =>
      rw [hs] at h
      dsimp only at h ⊢
      rw [h]
      rfl

/-- With an empty current row set, the joined condition loop skips every
condition and returns the empty row set. -/
theorem applyWhere_joined_nil (tbl : Option Table) :
    ∀ conds : List Cond, apply_where_conditions tbl true conds [] = .ok [] := by
  intro conds
  induction conds with
  | nil => rfl
  | cons c rest ih =>
    rw [apply_where_conditions]
    rw [show whereStep tbl true c [] = .next [] from by rw [whereStep.eq_def]; simp]
    exact ih

/-- Rows of equal shape classify a joined conjunct as clean identically. -/
theorem shape_condGoodJ {r1 r2 : Row} (h : shapeOf r1 = shapeOf r2) (c : Cond) :
    condGoodJ r1 c = condGoodJ r2 c := by
  unfold condGoodJ
  rw [shape_resolve h]
  cases hres : resolveJoinedCol r2 c.col with
  | none => rfl
  | some actual =>
    dsimp only
    have h2 := shape_dget_type h actual
    cases ha : dget r1 actual with
    | none =>
      cases hb : dget r2 actual with
      | none => rfl
      | some b => rw [ha, hb] at h2; cases h2
    | some a =>
      cases hb : dget r2 actual with
      | none => rw [ha, hb] at h2; cases h2
      | some b =>
        rw [ha, hb] at h2
        simp only [Option.map_some', Option.some.injEq] at h2
        dsimp only
        rw [h2]

/-- A cleanly evaluable unjoined conjunct is not a bad one. -/
theorem condGood_not_bad {t : Table} {c : Cond} (h : condGood t c = true) :
    condBad t c = false := by
  unfold condGood at h
  unfold condBad
  rcases Bool.and_eq_true_iff.mp h with ⟨hcol, hrest⟩
  rw [hcol]
  simp only [Bool.not_true, Bool.false_or]
  cases h1 : dget t.types c.col with
  | none => rw [h1] at hrest
  | some ty =>
    rw [h1] at hrest
    dsimp only at hrest ⊢
    cases h2 : PYTHON_TYPES ty with
    | none => rw [h2] at hrest
    | some ct =>
      rw [h2] at hrest
      dsimp only at hrest ⊢
      rw [hrest]
      rfl

/-- The unjoined per-operator scan never faults and narrows the current
row set, given a well-typed column. -/
theorem scanFilterStep_ok {col : String} {castv : Value} (op : String)
    {cur : List Row}
    (htyped : ∀ r ∈ cur, ∃ w, dget r col = some w ∧ typeOfValue w = typeOfValue castv) :
    ∃ next, scanFilterStep col castv op cur = .ok next ∧ ∀ r ∈ next, r ∈ cur := by
  have hcell : ∀ (f : Value → Value → Option Bool), (∀ {a b : Value},
      typeOfValue a = typeOfValue b → (f a b).isSome = true) →
      ∃ next, filterE (fun r => do
          let w ← getCell r col
          cmpOpt f (some w) castv) cur = .ok next ∧ ∀ r ∈ next, r ∈ cur := by
    intro f hf
    refine ⟨_, filterE_eq_ok (q := fun r =>
      ((f ((dget r col).getD (.vInt 0)) castv).getD false)) ?_,
      fun r hr => List.mem_of_mem_filter hr⟩
    intro r hr
    rcases htyped r hr with ⟨w, hw, htw⟩
    obtain ⟨bl, hbl⟩ := Option.isSome_iff_exists.mp (hf htw)
    rw [getCell, hw]
    dsimp only
    rw [except_bind_ok]
    unfold cmpOpt
    dsimp only
    rw [hw]
    dsimp only [Option.getD_some]
    rw [hbl]
    rfl
  unfold scanFilterStep
  split
  · -- "="
    refine ⟨_, filterE_eq_ok (q := fun r => pyEqOpt (dget r col) castv) ?_,
      fun r hr => List.mem_of_mem_filter hr⟩
    intro r hr
    rcases htyped r hr with ⟨w, hw, _⟩
    dsimp only [pyEqOpt]
    rw [getCell, hw]
    rfl
  · -- "!="
    refine ⟨_, filterE_eq_ok (q := fun r => !pyEqOpt (dget r col) castv) ?_,
      fun r hr => List.mem_of_mem_filter hr⟩
    intro r hr
    rcases htyped r hr with ⟨w, hw, _⟩
    dsimp only [pyEqOpt]
    rw [getCell, hw]
    rfl
  · exact hcell pyGt (fun h => pyLt_same_type h.symm)
  · exact hcell pyLt (fun h => pyLt_same_type h)
  · exact hcell pyGe (fun h => by
      unfold pyGe pyLe
      rw [Option.isSome_map']
      exact pyLt_same_type h.symm)
  · exact hcell pyLe (fun h => by
      unfold pyLe
      rw [Option.isSome_map']
      exact pyLt_same_type h)
  · exact ⟨cur, rfl, fun r hr => hr⟩

/-- The joined per-operator filter never faults and narrows the current
row set, given that every row holds a suitably-typed value at the
resolved column. -/
theorem joinedFilterStep_ok {actual : String} {castv : Value} (op : String)
    {cur : List Row}
    (htyped : ∀ r ∈ cur, ∃ w, dget r actual = some w ∧ typeOfValue w = typeOfValue castv) :
    ∃ next, joinedFilterStep actual castv op cur = .ok next ∧ ∀ r ∈ next, r ∈ cur := by
  have hcell : ∀ (f : Value → Value → Option Bool), (∀ {a b : Value},
      typeOfValue a = typeOfValue b → (f a b).isSome = true) →
      ∃ next, filterE (fun r => cmpOpt f (dget r actual) castv) cur = .ok next
        ∧ ∀ r ∈ next, r ∈ cur := by
    intro f hf
    refine ⟨_, filterE_eq_ok (q := fun r =>
      ((f ((dget r actual).getD (.vInt 0)) castv).getD false)) ?_,
      fun r hr => List.mem_of_mem_filter hr⟩
    intro r hr
    dsimp only
    rcases htyped r hr with ⟨w, hw, htw⟩
    obtain ⟨bl, hbl⟩ := Option.isSome_iff_exists.mp (hf htw)
    unfold cmpOpt
    rw [hw]
    dsimp only [Option.getD_some]
    rw [hbl]
    rfl
  unfold joinedFilterStep
  split
  · exact ⟨_, rfl, fun r hr => List.mem_of_mem_filter hr⟩
  · exact ⟨_, rfl, fun r hr => List.mem_of_mem_filter hr⟩
  · exact hcell pyGt (fun h => pyLt_same_type h.symm)
  · exact hcell pyLt (fun h => pyLt_same_type h)
  · exact hcell pyGe (fun h => by
      unfold pyGe pyLe
      rw [Option.isSome_map']
      exact pyLt_same_type h.symm)
  · exact hcell pyLe (fun h => by
      unfold pyLe
      rw [Option.isSome_map']
      exact pyLt_same_type h)
  · exact ⟨cur, rfl, fun r hr => hr⟩

/-- The unjoined condition loop returns the empty row set as soon as one
conjunct is bad (unknown column or failed cast), provided the other
conjuncts are cleanly evaluable over the (in-sync) table. -/
theorem applyWhere_bad_unjoined (t : Table) (hsync : rebuild_indexes t = .ok t) :
    ∀ (conds : List Cond) (cur : List Row),
      (∀ r ∈ cur, r ∈ t.rows) →
      (∀ c ∈ conds, condBad t c = true
        ∨ (condGood t c = true ∧ ∀ r ∈ t.rows, rowHasTyped t c r = true)) →
      (∃ c ∈ conds, condBad t c = true) →
      apply_where_conditions (some t) false conds cur = .ok [] := by
  intro conds
  induction conds with
  | nil =>
    rintro cur _ _ ⟨c, hc, _⟩
    cases hc
  | cons c rest ih =>
    intro cur hsub hmix hbad
    rw [apply_where_conditions]
    rcases hmix c (List.mem_cons_self _ _) with hb | ⟨hg, htyped⟩
    · -- bad conjunct: the step returns []
      have hstep : whereStep (some t) false c cur = .ret [] := by
        rw [whereStep.eq_def]
        rw [if_neg (by simp)]
        dsimp only
        unfold condBad at hb
        by_cases hcol : t.columns.contains c.col = true
        · have hfo : (!t.columns.contains c.col) = false := by rw [hcol]; rfl
          rw [hfo, Bool.false_or] at hb
          rw [hcol]
          rw [if_neg (by simp)]
          cases h1 : dget t.types c.col with
          | none => rw [h1] at hb; simp at hb
          | some ty =>
            rw [h1] at hb
            dsimp only at hb ⊢
            cases h2 : PYTHON_TYPES ty with
            | none => rw [h2] at hb; simp at hb
            | some ct =>
              rw [h2] at hb
              dsimp only at hb ⊢
              cases h3 : castValue ct c.val with
              | none => rfl
              | some castv => rw [h3] at hb; simp at hb
        · rw [if_pos (by rw [Bool.eq_false_iff.mpr hcol]; rfl)]
      rw [hstep]
    · -- clean conjunct: the step narrows the current row set
      unfold condGood at hg
      rcases Bool.and_eq_true_iff.mp hg with ⟨hcol, hrest2⟩
      obtain ⟨ty, hty, ct, hpt, castv, hcast⟩ :
          ∃ ty, dget t.types c.col = some ty ∧ ∃ ct, PYTHON_TYPES ty = some ct
            ∧ ∃ castv, castValue ct c.val = some castv := by
        cases h1 : dget t.types c.col with
        | none => rw [h1] at hrest2; cases hrest2
        | some ty =>
          rw [h1] at hrest2
          dsimp only at hrest2
          cases h2 : PYTHON_TYPES ty with
          | none => rw [h2] at hrest2; cases hrest2
          | some ct =>
            rw [h2] at hrest2
            dsimp only at hrest2
            cases h3 : castValue ct c.val with
            | none => rw [h3] at hrest2; simp at hrest2
            | some castv => exact ⟨ty, rfl, ct, h2, castv, h3⟩
      have hctv : typeOfValue castv = ct := castValue_typeOf hcast
      have hbadrest : ∃ c2 ∈ rest, condBad t c2 = true := by
        rcases hbad with ⟨c2, hc2, hb2⟩
        rcases List.mem_cons.mp hc2 with rfl | hc2r
        · rw [condGood_not_bad hg] at hb2
          cases hb2
        · exact ⟨c2, hc2r, hb2⟩
      have hcurtyped : ∀ r ∈ cur, ∃ w, dget r c.col = some w
          ∧ typeOfValue w = typeOfValue castv := by
        intro r hr
        have h2 := htyped r (hsub r hr)
        unfold rowHasTyped at h2
        rw [hty] at h2
        dsimp only at h2
        rw [hpt] at h2
        cases hw : dget r c.col with
        | none => rw [hw] at h2; cases h2
        | some w =>
          rw [hw] at h2
          exact ⟨w, rfl, by rw [hctv]; exact beq_iff_eq.mp h2⟩
      by_cases hsc : (cur == t.rows && c.op == "=" && dmem t.indexes c.col) = true
      · -- index shortcut: the bucket is a subset of the rows
        have hstep : whereStep (some t) false c cur
            = .next ((dget ((dget t.indexes c.col).getD []) (pyStr castv)).getD []) := by
          rw [whereStep.eq_def]
          rw [if_neg (by simp)]
          dsimp only
          rw [hcol]
          rw [if_neg (by simp)]
          rw [hty]
          dsimp only
          rw [hpt]
          dsimp only
          rw [hcast]
          dsimp only
          rw [if_pos hsc]
        rw [hstep]
        dsimp only
        rcases Bool.and_eq_true_iff.mp hsc with ⟨_, hdm⟩
        obtain ⟨d, hd⟩ : ∃ d, dget t.indexes c.col = some d := by
          unfold dmem at hdm
          exact Option.isSome_iff_exists.mp hdm
        have hbsub : ∀ r ∈ (dget ((dget t.indexes c.col).getD []) (pyStr castv)).getD [],
            r ∈ t.rows := by
          rw [hd]
          dsimp only [Option.getD_some]
          rw [sync_bucket hsync hd, dget_buildBuckets_getD]
          exact fun r hr => List.mem_of_mem_filter hr
        exact ih _ hbsub (fun c2 hc2 => hmix c2 (List.mem_cons_of_mem _ hc2)) hbadrest
      · -- full scan: the narrowed set is a subset of the current one
        obtain ⟨next, hnext, hsubn⟩ := scanFilterStep_ok c.op hcurtyped
        have hstep : whereStep (some t) false c cur = .next next := by
          rw [whereStep.eq_def]
          rw [if_neg (by simp)]
          dsimp only
          rw [hcol]
          rw [if_neg (by simp)]
          rw [hty]
          dsimp only
          rw [hpt]
          dsimp only
          rw [hcast]
          dsimp only
          rw [if_neg hsc, hnext]
        rw [hstep]
        dsimp only
        exact ih _ (fun r hr => hsub r (hsubn r hr))
          (fun c2 hc2 => hmix c2 (List.mem_cons_of_mem _ hc2)) hbadrest

/-- The joined condition loop returns the empty row set as soon as one
conjunct is bad, provided all rows share the shape of the reference row
and the other conjuncts are cleanly evaluable. -/
theorem applyWhere_bad_joined (first0 : Row) :
    ∀ (conds : List Cond) (cur : List Row),
      (∀ r ∈ cur, shapeOf r = shapeOf first0) →
      (∀ c ∈ conds, condBadJ first0 c = true ∨ condGoodJ first0 c = true) →
      (∃ c ∈ conds, condBadJ first0 c = true) →
      apply_where_conditions none true conds cur = .ok [] := by
  intro conds
  induction conds with
  | nil =>
    rintro cur _ _ ⟨c, hc, _⟩
    cases hc
  | cons c rest ih =>
    intro cur hshape hmix hbad
    cases cur with
    | nil => exact applyWhere_joined_nil none (c :: rest)
    | cons first tail =>
      have hsh : shapeOf first = shapeOf first0 := hshape first (List.mem_cons_self _ _)
      have hbadrest : condGoodJ first0 c = true → ∃ c2 ∈ rest, condBadJ first0 c2 = true := by
        intro hg
        rcases hbad with ⟨c2, hc2, hb2⟩
        rcases List.mem_cons.mp hc2 with rfl | hc2r
        · rw [condGoodJ_not_bad hg] at hb2
          cases hb2
        · exact ⟨c2, hc2r, hb2⟩
      rw [apply_where_conditions]
      rcases hmix c (List.mem_cons_self _ _) with hb | hg
      · have hb1 : condBadJ first c = true := by rw [shape_condBadJ hsh]; exact hb
        have hstep : whereStep none true c (first :: tail) = .ret [] := by
          rw [whereStep.eq_def]
          rw [if_pos rfl]
          dsimp only
          unfold condBadJ at hb1
          cases hres : resolveJoinedCol first c.col with
          | none => rfl
          | some actual =>
            rw [hres] at hb1
            dsimp only at hb1 ⊢
            cases hs : dget first actual with
            | none => rfl
            | some sample =>
              rw [hs] at hb1
              dsimp only at hb1 ⊢
              cases h3 : castValue (typeOfValue sample) c.val with
              | none => rfl
              | some castv => rw [h3] at hb1; simp at hb1
        rw [hstep]
      · have hg1 : condGoodJ first c = true := by rw [shape_condGoodJ hsh]; exact hg
        unfold condGoodJ at hg1
        obtain ⟨actual, hres⟩ : ∃ actual, resolveJoinedCol first c.col = some actual := by
          cases hres : resolveJoinedCol first c.col with
          | none => rw [hres] at hg1; cases hg1
          | some actual => exact ⟨actual, rfl⟩
        rw [hres] at hg1
        dsimp only at hg1
        obtain ⟨sample, hs⟩ : ∃ sample, dget first actual = some sample := by
          cases hs : dget first actual with
          | none => rw [hs] at hg1; cases hg1
          | some sample => exact ⟨sample, rfl⟩
        rw [hs] at hg1
        dsimp only at hg1
        obtain ⟨castv, hcast⟩ := Option.isSome_iff_exists.mp hg1
        have hctv : typeOfValue castv = typeOfValue sample := castValue_typeOf hcast
        have hcurtyped : ∀ r ∈ first :: tail, ∃ w, dget r actual = some w
            ∧ typeOfValue w = typeOfValue castv := by
          intro r hr
          have hshr : shapeOf r = shapeOf first :=
            (hshape r hr).trans hsh.symm
          have h2 := shape_dget_type hshr actual
          rw [hs] at h2
          cases hw : dget r actual with
          | none => rw [hw] at h2; cases h2
          | some w =>
            rw [hw] at h2
            simp only [Option.map_some', Option.some.injEq] at h2
            exact ⟨w, rfl, by rw [h2, hctv]⟩
        obtain ⟨next, hnext, hsubn⟩ := joinedFilterStep_ok c.op hcurtyped
        have hstep : whereStep none true c (first :: tail) = .next next := by
          rw [whereStep.eq_def]
          rw [if_pos rfl]
          dsimp only
          rw [hres]
          dsimp only
          rw [hs]
          dsimp only
          rw [hcast]
          dsimp only
          rw [hnext]
        rw [hstep]
        dsimp only
        exact ih _ (fun r hr => hshape r (hsubn r hr))
          (fun c2 hc2 => hmix c2 (List.mem_cons_of_mem _ hc2)) (hbadrest hg)

/-- When the WHERE loop returns the empty row list, `finishSelect` returns
the empty row sequence: both the `SELECT *` branch and the projection
branch map an empty row set to `.rows []`. -/
theorem finishSelect_empty (t? : Option Table) (isJoined : Bool)
    (rows : List Row) (stmt : SelectStmt) (conds : List Cond)
    (hw : stmt.whereConds = some conds)
    (happ : apply_where_conditions t? isJoined conds rows = .ok []) :
    finishSelect t? isJoined rows stmt = .rows [] := by
  unfold finishSelect
  rw [hw]
  dsimp only
  rw [happ]
  dsimp only
  split <;> rfl

/-- C3 (corrected). For a SELECT whose WHERE clause has a conjunct naming
an unknown column or carrying an uncastable comparison value, the engine
does NOT return an error: it returns the empty row sequence.
Part 1 (unjoined, `engine.py` lines 116-124): with the table's indexes in
sync and every other conjunct cleanly evaluable, `execSelect` returns
`.rows []`. Part 2 (joined, lines 84-99): on a shape-uniform joined row
set with an unresolvable or uncastable conjunct, the shared
`finishSelect` path returns `.rows []`. -/
theorem C3_unknown_where_returns_empty :
    (∀ (db : DB) (stmt : SelectStmt) (t : Table) (conds : List Cond),
      dget db stmt.table_name = some t →
      stmt.join = none →
      stmt.whereConds = some conds →
      rebuild_indexes t = .ok t →
      (∀ c ∈ conds, condBad t c = true
        ∨ (condGood t c = true ∧ ∀ r ∈ t.rows, rowHasTyped t c r = true)) →
      (∃ c ∈ conds, condBad t c = true) →
      execSelect db stmt = .rows [])
    ∧
    (∀ (rows : List Row) (stmt : SelectStmt) (first0 : Row) (conds : List Cond),
      stmt.whereConds = some conds →
      (∀ r ∈ rows, shapeOf r = shapeOf first0) →
      (∀ c ∈ conds, condBadJ first0 c = true ∨ condGoodJ first0 c = true) →
      (∃ c ∈ conds, condBadJ first0 c = true) →
      finishSelect none true rows stmt = .rows []) := by
  constructor
  · intro db stmt t conds hdb hjoin hw hsync hmix hbad
    unfold execSelect
    rw [hdb]
    dsimp only
    rw [hjoin]
    exact finishSelect_empty (some t) false t.rows stmt conds hw
      (applyWhere_bad_unjoined t hsync conds t.rows (fun r hr => hr) hmix hbad)
  · intro rows stmt first0 conds hw hshape hmix hbad
    exact finishSelect_empty none true rows stmt conds hw
      (applyWhere_bad_joined first0 conds rows hshape hmix hbad)

/-- Counterexample to the literal C3 claim: `SELECT * FROM t3 WHERE
nosuch = 1` on the engine-built one-row table `t3(id int primary)`
returns the row sequence `.rows []`, not an error message. -/
theorem C3_counterexample :
    execSelect C3_db C3_stmt = Res.rows [] ∧
    ∀ s, execSelect C3_db C3_stmt ≠ Res.msg s := by
  refine ⟨rfl, ?_⟩
  intro s h
  rw [show execSelect C3_db C3_stmt = Res.rows [] from rfl] at h
  exact Res.noConfusion h

/-- Witness for C3: the unjoined part at the concrete database `C3_db`
and statement `C3_stmt`, and the joined part at the concrete joined row
set `C3_jrows` with the unresolvable conjunct `zzz = 1`. -/
theorem C3_unknown_where_returns_empty_witness :
    execSelect C3_db C3_stmt = Res.rows [] ∧
    finishSelect none true C3_jrows
      ⟨"j", ["*"], some [⟨"zzz", "=", "1"⟩], none⟩ = Res.rows [] :=
  ⟨C3_unknown_where_returns_empty.1 C3_db C3_stmt C3_t [⟨"nosuch", "=", "1"⟩]
      rfl rfl rfl rfl
      (by intro c hc; left; simp at hc; rw [hc]; rfl)
      ⟨⟨"nosuch", "=", "1"⟩, List.mem_singleton.mpr rfl, rfl⟩,
   C3_unknown_where_returns_empty.2 C3_jrows
      ⟨"j", ["*"], some [⟨"zzz", "=", "1"⟩], none⟩
      [("a.id", Value.vInt 1), ("b.id", Value.vInt 1)] [⟨"zzz", "=", "1"⟩]
      rfl
      (by intro r hr; simp only [C3_jrows, List.mem_singleton] at hr; rw [hr])
      (by intro c hc; left; simp at hc; rw [hc]; rfl)
      ⟨⟨"zzz", "=", "1"⟩, List.mem_singleton.mpr rfl, rfl⟩⟩

end RDB
